import Mathlib

/-!
The echo-one backend: alert normalisation, fire feed and ingestion paths.

A shallow embedding of `leo-backend/src/server.js` (`normalizeAlert`, the MQTT
message handler, `POST /alert`, `GET /alerts`, the validation of `AlertSchema`)
and `leo-backend/src/nasa_fires.js` (`fetchRecentFires`).

The JavaScript values that can reach the code are modelled by `JSValue`:
the JSON values, `undefined`, non-finite numbers and `Date` objects.
Finite numbers are exact rationals: the rounding of IEEE doubles and the sign
of zero are not modelled, overflow to `Infinity` when a numeric string is
read is. The runtime services whose result depends on tables or on the
engine (`toUpperCase`, `Number::toString`, `Date.parse`, `Date::toString`)
are the fields of `Host`. The sort of the database is a parameter of the
read path, with what it promises stated by `SortsNewestFirst`.
-/

namespace EchoOne

/-! ## Numbers -/

/-- A JavaScript Number: a finite value, `NaN`, `Infinity` or `-Infinity`. -/
inductive JSNum where
  | fin (q : ℚ)
  | nan
  | posInf
  | negInf
  deriving DecidableEq

namespace JSNum

/-- `Number.isFinite` on a Number. -/
def isFinite : JSNum → Bool
  | fin _ => true
  | _ => false

/-- `isNaN` on a Number. -/
def isNaN : JSNum → Bool
  | nan => true
  | _ => false

/-- Unary minus. -/
def neg : JSNum → JSNum
  | fin q => fin (-q)
  | nan => nan
  | posInf => negInf
  | negInf => posInf

/-- The binary `-` on Numbers. -/
def sub : JSNum → JSNum → JSNum
  | nan, _ => nan
  | _, nan => nan
  | fin a, fin b => fin (a - b)
  | fin _, posInf => negInf
  | fin _, negInf => posInf
  | posInf, posInf => nan
  | posInf, _ => posInf
  | negInf, negInf => nan
  | negInf, _ => negInf

/-- The binary `/` on Numbers. A zero divisor is read as `+0`. -/
def div : JSNum → JSNum → JSNum
  | nan, _ => nan
  | _, nan => nan
  | fin a, fin b =>
      if b = 0 then (if a = 0 then nan else if 0 < a then posInf else negInf)
      else fin (a / b)
  | fin _, _ => fin 0
  | posInf, fin b => if 0 ≤ b then posInf else negInf
  | negInf, fin b => if 0 ≤ b then negInf else posInf
  | _, _ => nan

/-- `Math.round`: the nearest integer, halves going up. -/
def round : JSNum → JSNum
  | fin q => fin (⌊q + 1 / 2⌋ : ℤ)
  | n => n

/-- `Math.min` of two Numbers. -/
def min : JSNum → JSNum → JSNum
  | nan, _ => nan
  | _, nan => nan
  | negInf, _ => negInf
  | _, negInf => negInf
  | posInf, b => b
  | a, posInf => a
  | fin a, fin b => fin (Min.min a b)

/-- `Math.max` of two Numbers. -/
def max : JSNum → JSNum → JSNum
  | nan, _ => nan
  | _, nan => nan
  | posInf, _ => posInf
  | _, posInf => posInf
  | negInf, b => b
  | a, negInf => a
  | fin a, fin b => fin (Max.max a b)

end JSNum

/-! ## Reading a number from a string -/

/-- The white space and line terminators that `Number` and `parseFloat`
strip. -/
def isJSWhitespace (c : Char) : Bool :=
  let n := c.toNat
  n = 9 || n = 10 || n = 11 || n = 12 || n = 13 || n = 32 || n = 0xA0 ||
  n = 0x1680 || (0x2000 ≤ n && n ≤ 0x200A) || n = 0x2028 || n = 0x2029 ||
  n = 0x202F || n = 0x205F || n = 0x3000 || n = 0xFEFF

/-- Drop leading white space. -/
def trimStart (cs : List Char) : List Char :=
  cs.dropWhile isJSWhitespace

/-- Drop leading and trailing white space. -/
def trimBoth (cs : List Char) : List Char :=
  (trimStart (trimStart cs).reverse).reverse

/-- The value of a digit in the given base (at most 16). -/
def digitValue (base : Nat) (c : Char) : Option Nat :=
  let n := c.toNat
  let v : Option Nat :=
    if 48 ≤ n ∧ n ≤ 57 then some (n - 48)
    else if 97 ≤ n ∧ n ≤ 102 then some (n - 87)
    else if 65 ≤ n ∧ n ≤ 70 then some (n - 55)
    else none
  match v with
  | some d => if d < base then some d else none
  | none => none

/-- Read the longest run of digits: the number read so far, the count of
digits read, and the rest. -/
def scanDigits (base : Nat) : List Char → Nat → Nat → Nat × Nat × List Char
  | [], acc, k => (acc, k, [])
  | c :: cs, acc, k =>
    match digitValue base c with
    | some d => scanDigits base cs (acc * base + d) (k + 1)
    | none => (acc, k, c :: cs)

/-- The exponent part `e±ddd`, when one is there: its value and the rest. -/
def scanExponent : List Char → Option (ℤ × List Char)
  | c :: cs =>
    if c = 'e' ∨ c = 'E' then
      let (neg, ds) : Bool × List Char :=
        match cs with
        | '+' :: r => (false, r)
        | '-' :: r => (true, r)
        | r => (false, r)
      match scanDigits 10 ds 0 0 with
      | (_, 0, _) => none
      | (e, _, rest) => some (if neg then -(e : ℤ) else (e : ℤ), rest)
    else none
  | [] => none

/-- The least magnitude that a double rounds to `Infinity`,
`2 ^ 1024 - 2 ^ 970`. -/
def overflowBound : Nat := (2 ^ 54 - 1) * (2 ^ 194) ^ 5

/-- Whether the decimal `m * 10 ^ e` reaches `overflowBound`. -/
def overflows (m : Nat) : ℤ → Bool
  | Int.ofNat k => decide (overflowBound ≤ m * 10 ^ k)
  | Int.negSucc k => decide (overflowBound * 10 ^ (k + 1) ≤ m)

/-- The Number for the decimal `m * 10 ^ e`, overflowing to `Infinity`. -/
def decimalValue (m : Nat) (e : ℤ) : JSNum :=
  if overflows m e then JSNum.posInf else JSNum.fin ((m : ℚ) * (10 : ℚ) ^ e)

/-- The longest prefix that is an unsigned decimal literal (`Infinity`,
`12`, `12.`, `12.5`, `.5`, each with an optional exponent): its value and
the rest. -/
def scanUnsigned (cs : List Char) : Option (JSNum × List Char) :=
  match cs with
  | 'I' :: 'n' :: 'f' :: 'i' :: 'n' :: 'i' :: 't' :: 'y' :: rest =>
    some (JSNum.posInf, rest)
  | _ =>
    let (ip, ik, r1) := scanDigits 10 cs 0 0
    let (m, fk, r2) : Nat × Nat × List Char :=
      match r1 with
      | '.' :: r => scanDigits 10 r ip 0
      | r => (ip, 0, r)
    let hasDot : Bool := match r1 with
      | '.' :: _ => true
      | _ => false
    if ik + fk = 0 then none
    else
      let r2 : List Char := if hasDot then r2 else r1
      match scanExponent r2 with
      | some (e, rest) => some (decimalValue m (e - fk), rest)
      | none => some (decimalValue m (-(fk : ℤ)), r2)

/-- The longest prefix that is a signed decimal literal. -/
def scanSigned : List Char → Option (JSNum × List Char)
  | '+' :: cs => scanUnsigned cs
  | '-' :: cs =>
    match scanUnsigned cs with
    | some (n, rest) => some (n.neg, rest)
    | none => none
  | cs => scanUnsigned cs

/-- A literal in base 2, 8 or 16 after its prefix: digits only, at least one. -/
def radixValue (base : Nat) (cs : List Char) : JSNum :=
  match scanDigits base cs 0 0 with
  | (_, 0, _) => JSNum.nan
  | (v, _, []) => if overflowBound ≤ v then JSNum.posInf else JSNum.fin v
  | _ => JSNum.nan

/-- `StringToNumber`: what `Number(s)` and `s - 300` read from a string. -/
def stringToNumber (s : String) : JSNum :=
  match trimBoth s.toList with
  | [] => JSNum.fin 0
  | '0' :: 'x' :: cs => radixValue 16 cs
  | '0' :: 'X' :: cs => radixValue 16 cs
  | '0' :: 'o' :: cs => radixValue 8 cs
  | '0' :: 'O' :: cs => radixValue 8 cs
  | '0' :: 'b' :: cs => radixValue 2 cs
  | '0' :: 'B' :: cs => radixValue 2 cs
  | cs =>
    match scanSigned cs with
    | some (n, []) => n
    | _ => JSNum.nan

/-- The `parseFloat` of a string: the longest decimal prefix after leading
white space. -/
def parseFloat (s : String) : JSNum :=
  match scanSigned (trimStart s.toList) with
  | some (n, _) => n
  | none => JSNum.nan

/-! ## Values -/

/-- What a JavaScript operation throws. A `validationError` is the one of
mongoose, with the paths that failed. -/
inductive JSError where
  | error (message : String)
  | typeError
  | rangeError
  | validationError (paths : List String)
  deriving DecidableEq

/-- The values the code can meet: the JSON values, `undefined`, the
non-finite numbers and `Date` objects. A `date` carries its time value in
milliseconds, `none` for an invalid date. -/
inductive JSValue where
  | undefined
  | null
  | bool (b : Bool)
  | num (n : JSNum)
  | str (s : String)
  | arr (items : List JSValue)
  | obj (fields : List (String × JSValue))
  | date (t : Option ℤ)

/-- The runtime services whose result comes from tables or from the engine. -/
structure Host where
  /-- `String.prototype.toUpperCase`. -/
  toUpperCase : String → String
  /-- `Number::toString` on a finite number. -/
  numberToString : ℚ → String
  /-- `Date.parse`: the time value a string denotes, `none` for `NaN`. -/
  dateParse : String → Option ℤ
  /-- `Date.prototype.toString`. -/
  dateToString : Option ℤ → String

namespace JSValue

/-- `ToBoolean`: what `if (v)` and `v || d` test. -/
def toBoolean : JSValue → Bool
  | undefined => false
  | null => false
  | bool b => b
  | num (JSNum.fin q) => decide (q ≠ 0)
  | num JSNum.nan => false
  | num _ => true
  | str s => decide (s ≠ "")
  | _ => true

/-- `typeof v === "string"`. -/
def isString : JSValue → Bool
  | str _ => true
  | _ => false

end JSValue

/-- Whether a key is an own property of an object's field list. -/
def hasOwn (fields : List (String × JSValue)) (key : String) : Bool :=
  fields.any (fun kv => kv.1 == key)

/-- An own property's value, `undefined` when the key is not there. -/
def ownProperty (fields : List (String × JSValue)) (key : String) : JSValue :=
  match fields.find? (fun kv => kv.1 == key) with
  | some kv => kv.2
  | none => JSValue.undefined

/-- The member access `v.key` for the eight keys `normalizeAlert` reads, none of
which is defined on a built-in prototype: a `TypeError` on `null` and
`undefined`, the own property of an object, `undefined` on anything else. -/
def getProp (v : JSValue) (key : String) : Except JSError JSValue :=
  match v with
  | JSValue.undefined => Except.error JSError.typeError
  | JSValue.null => Except.error JSError.typeError
  | JSValue.obj fields => Except.ok (ownProperty fields key)
  | _ => Except.ok JSValue.undefined

/-- A property of an object value, `undefined` on anything else. -/
def field (v : JSValue) (key : String) : JSValue :=
  match v with
  | JSValue.obj fields => ownProperty fields key
  | _ => JSValue.undefined

/-- `Number::toString`. -/
def numToString (h : Host) : JSNum → String
  | JSNum.fin q => h.numberToString q
  | JSNum.nan => "NaN"
  | JSNum.posInf => "Infinity"
  | JSNum.negInf => "-Infinity"

/-- Join strings with a separator, as `Array.prototype.join` does. -/
def joinWith (sep : String) : List String → String
  | [] => ""
  | [s] => s
  | s :: rest => s ++ sep ++ joinWith sep rest

mutual

/-- `ToString`, as `String(v)` performs it. An object parsed from JSON has no
callable own property, so an own `toString` hides `Object.prototype.toString`
and leaves no method that returns a primitive: the conversion throws a
`TypeError`. An array is joined with commas, `null` and `undefined` items
giving the empty string. -/
def toStringJS (h : Host) : JSValue → Except JSError String
  | JSValue.undefined => Except.ok "undefined"
  | JSValue.null => Except.ok "null"
  | JSValue.bool b => Except.ok (if b then "true" else "false")
  | JSValue.num n => Except.ok (numToString h n)
  | JSValue.str s => Except.ok s
  | JSValue.arr items =>
    match itemStrings h items with
    | Except.ok ss => Except.ok (joinWith "," ss)
    | Except.error e => Except.error e
  | JSValue.obj fields =>
    if hasOwn fields "toString" then Except.error JSError.typeError
    else Except.ok "[object Object]"
  | JSValue.date t => Except.ok (h.dateToString t)

/-- The strings `Array.prototype.join` makes of the items. -/
def itemStrings (h : Host) : List JSValue → Except JSError (List String)
  | [] => Except.ok []
  | v :: rest =>
    let first : Except JSError String :=
      match v with
      | JSValue.undefined => Except.ok ""
      | JSValue.null => Except.ok ""
      | w => toStringJS h w
    match first with
    | Except.error e => Except.error e
    | Except.ok s =>
      match itemStrings h rest with
      | Except.ok ss => Except.ok (s :: ss)
      | Except.error e => Except.error e

end

/-- `ToNumber`, as `Number(v)` and the operand of `-` perform it: an array or
object is first converted to a string. -/
def toNumber (h : Host) : JSValue → Except JSError JSNum
  | JSValue.undefined => Except.ok JSNum.nan
  | JSValue.null => Except.ok (JSNum.fin 0)
  | JSValue.bool b => Except.ok (JSNum.fin (if b then 1 else 0))
  | JSValue.num n => Except.ok n
  | JSValue.str s => Except.ok (stringToNumber s)
  | JSValue.date t =>
    match t with
    | some ms => Except.ok (JSNum.fin ms)
    | none => Except.ok JSNum.nan
  | v =>
    match toStringJS h v with
    | Except.ok s => Except.ok (stringToNumber s)
    | Except.error e => Except.error e

/-- The largest magnitude of a time value, in milliseconds. -/
def maxTime : ℚ := 8640000000000000

/-- `TimeClip`: the time value of a Number, `none` when it is not finite or
out of range; a fraction is cut towards zero. -/
def timeClip : JSNum → Option ℤ
  | JSNum.fin q =>
    if maxTime < |q| then none
    else some (if 0 ≤ q then ⌊q⌋ else ⌈q⌉)
  | _ => none

/-- The time value of `new Date(v)`: a date is copied, a string (or an array
or object, through its string) is parsed, anything else is read as a
number of milliseconds. -/
def newDate (h : Host) : JSValue → Except JSError (Option ℤ)
  | JSValue.date t => Except.ok t
  | JSValue.str s => Except.ok (h.dateParse s)
  | JSValue.arr items =>
    match toStringJS h (JSValue.arr items) with
    | Except.ok s => Except.ok (h.dateParse s)
    | Except.error e => Except.error e
  | JSValue.obj fields =>
    match toStringJS h (JSValue.obj fields) with
    | Except.ok s => Except.ok (h.dateParse s)
    | Except.error e => Except.error e
  | v =>
    match toNumber h v with
    | Except.ok n => Except.ok (timeClip n)
    | Except.error e => Except.error e

/-! ## `normalizeAlert` (server.js) -/

/-- The error `normalizeAlert` throws on bad coordinates. -/
def latLngInvalides : JSError := JSError.error "lat/lng invalides"

/-- The intensity kept for `Number(input.intensity)`:
`Number.isFinite(intensity) ? Math.min(5, Math.max(0, intensity)) : 1`. -/
def normalizedIntensity (intensity : JSNum) : JSNum :=
  if intensity.isFinite
  then JSNum.min (JSNum.fin 5) (JSNum.max (JSNum.fin 0) intensity)
  else JSNum.fin 1

/-- The pattern `typeof v === "string" ? v : d`. -/
def stringOr (v : JSValue) (d : String) : JSValue :=
  if v.isString then v else JSValue.str d

/-- The properties `normalizeAlert` gives `out` before `ts`, in the order it
assigns them. -/
def outFields (h : Host) (tyStr : String) (lat lng : JSNum) (msgV : JSValue)
    (intensity : JSNum) (srcV villeV : JSValue) : List (String × JSValue) :=
  [("type", JSValue.str (h.toUpperCase tyStr)),
   ("lat", JSValue.num lat),
   ("lng", JSValue.num lng),
   ("msg", stringOr msgV "Signal reçu"),
   ("intensity", JSValue.num (normalizedIntensity intensity)),
   ("source", stringOr srcV "unknown"),
   ("ville", stringOr villeV "Inconnue")]

/-- The operand of `String(...)` for the type: `input.type || "SOS"`. -/
def typeOperand (ty : JSValue) : JSValue :=
  if ty.toBoolean then ty else JSValue.str "SOS"

/-- The property `ts` that `normalizeAlert` adds to `out`, if any:
`if (input.ts) { const d = new Date(input.ts); if (!isNaN(d.getTime())) out.ts = d; }`. -/
def tsFields (h : Host) (tsV : JSValue) : Except JSError (List (String × JSValue)) :=
  if tsV.toBoolean then
    match newDate h tsV with
    | Except.error e => Except.error e
    | Except.ok (some ms) => Except.ok [("ts", JSValue.date (some ms))]
    | Except.ok none => Except.ok []
  else Except.ok []

/-- The function `normalizeAlert` of server.js. The result is the object
`out`, its properties in the order they are assigned. -/
def normalizeAlert (h : Host) (arg : JSValue) : Except JSError JSValue :=
  let input : JSValue :=
    match arg with
    | JSValue.undefined => JSValue.obj []
    | v => v
  match getProp input "type" with
  | Except.error e => Except.error e
  | Except.ok ty =>
  match toStringJS h (typeOperand ty) with
  | Except.error e => Except.error e
  | Except.ok tyStr =>
  match getProp input "lat" with
  | Except.error e => Except.error e
  | Except.ok latV =>
  match toNumber h latV with
  | Except.error e => Except.error e
  | Except.ok lat =>
  match getProp input "lng" with
  | Except.error e => Except.error e
  | Except.ok lngV =>
  match toNumber h lngV with
  | Except.error e => Except.error e
  | Except.ok lng =>
  if !lat.isFinite || !lng.isFinite then Except.error latLngInvalides
  else
  match getProp input "msg" with
  | Except.error e => Except.error e
  | Except.ok msgV =>
  match getProp input "intensity" with
  | Except.error e => Except.error e
  | Except.ok intV =>
  match toNumber h intV with
  | Except.error e => Except.error e
  | Except.ok intensity =>
  match getProp input "source" with
  | Except.error e => Except.error e
  | Except.ok srcV =>
  match getProp input "ville" with
  | Except.error e => Except.error e
  | Except.ok villeV =>
  match getProp input "ts" with
  | Except.error e => Except.error e
  | Except.ok tsV =>
  match tsFields h tsV with
  | Except.error e => Except.error e
  | Except.ok extra =>
    Except.ok (JSValue.obj (outFields h tyStr lat lng msgV intensity srcV villeV ++ extra))

/-! ## `fetchRecentFires` (nasa_fires.js) -/

/-- The JavaScript `split` of a text on a one-character separator: the
pieces between the separators, empty pieces kept. -/
def splitChars (sep : Char) : List Char → List (List Char)
  | [] => [[]]
  | c :: cs =>
    if c = sep then [] :: splitChars sep cs
    else
      match splitChars sep cs with
      | [] => [[c]]
      | piece :: pieces => (c :: piece) :: pieces

/-- The method `split` on strings. -/
def split (s : String) (sep : Char) : List String :=
  (splitChars sep s.toList).map String.mk

/-- The method `slice(start, stop)` on arrays, for indices that are not
negative. -/
def slice {α : Type} (xs : List α) (start stop : Nat) : List α :=
  (xs.take stop).drop start

/-- An item of a destructured array: `undefined` past the end. -/
def column (cols : List String) (i : Nat) : JSValue :=
  match cols.get? i with
  | some s => JSValue.str s
  | none => JSValue.undefined

/-- `ToNumber` of a column, a string or `undefined`. -/
def columnNumber : JSValue → JSNum
  | JSValue.str s => stringToNumber s
  | _ => JSNum.nan

/-- The text of a column, a string or `undefined`, in a template literal
and under `parseFloat`. -/
def columnText : JSValue → String
  | JSValue.str s => s
  | _ => "undefined"

/-- The intensity the feed gives a brightness:
`Math.min(5, Math.round((brightness - 300) / 50))`. -/
def fireIntensity (brightness : JSValue) : JSNum :=
  JSNum.min (JSNum.fin 5)
    (JSNum.round (JSNum.div (JSNum.sub (columnNumber brightness) (JSNum.fin 300)) (JSNum.fin 50)))

/-- The alert `fetchRecentFires` makes of one line of the feed (the body of
its `rows.map`). -/
def fireAlert (line : String) : JSValue :=
  let cols := split line ','
  let latitude := column cols 0
  let longitude := column cols 1
  let brightness := column cols 2
  let acq_date := column cols 5
  JSValue.obj
    [("type", JSValue.str "FIRE"),
     ("msg", JSValue.str ("NASA FIRMS fire detected (" ++ columnText acq_date ++ ")")),
     ("lat", JSValue.num (parseFloat (columnText latitude))),
     ("lng", JSValue.num (parseFloat (columnText longitude))),
     ("intensity", JSValue.num (fireIntensity brightness)),
     ("source", JSValue.str "NASA_FIRMS")]

/-- The alerts made of a feed text: `csv.split("\n").slice(1, 10).map(...)`. -/
def fireAlerts (csv : String) : List JSValue :=
  (slice (split csv '\n') 1 10).map fireAlert

/-- How the HTTP request of `fetchRecentFires` ends: `fetch(url)` rejects,
`res.text()` rejects, or the body text arrives. -/
inductive FetchOutcome where
  | requestFails (e : JSError)
  | bodyFails (e : JSError)
  | body (csv : String)

/-- The function `fetchRecentFires` of nasa_fires.js, given how its request
ends. It has no `try`: a rejected `await` rejects the call. -/
def fetchRecentFires : FetchOutcome → Except JSError (List JSValue)
  | FetchOutcome.requestFails e => Except.error e
  | FetchOutcome.bodyFails e => Except.error e
  | FetchOutcome.body csv => Except.ok (fireAlerts csv)

/-- A feed text: a header line, then the data lines, each on a line of its
own. -/
def feedText (header : String) (rows : List String) : String :=
  joinWith "\n" (header :: rows)

/-! ## The two ingestion paths (server.js) -/

/-- What the handlers do that can be observed, in the order it happens. -/
inductive Event where
  /-- `Alert.create` resolved with this record. -/
  | stored (record : JSValue)
  /-- `io.emit(name, payload)`. -/
  | emitted (name : String) (payload : JSValue)
  /-- `console.log("[MQTT] Alert saved:", ...)`. -/
  | savedLog (record : JSValue)
  /-- `console.error("[MQTT] Bad payload:", e.message)`. -/
  | badPayloadLog (cause : JSError)
  /-- `res.status(201).json(alert)`. -/
  | created (record : JSValue)
  /-- `res.status(400).json({ error: ... })`. -/
  | badRequest (cause : JSError)

/-- The handler a pending `Alert.create` belongs to. -/
inductive Path where
  | mqtt
  | post
  deriving DecidableEq

/-- The server between two turns of the event loop: the handlers suspended
at `await Alert.create(data)`, the records the store holds, and what has
happened so far. -/
structure Server where
  pending : List (Path × JSValue)
  db : List JSValue
  trace : List Event

/-- What the event loop runs next. -/
inductive Action where
  /-- An MQTT message, with what `JSON.parse(payload.toString())` gives. -/
  | message (parsed : Except JSError JSValue)
  /-- A `POST /alert` request with this `req.body`. -/
  | postAlert (body : JSValue)
  /-- The `Alert.create` of the pending handler at this index settles: it
  resolves with the saved record or rejects. -/
  | createSettles (index : Nat) (outcome : Except JSError JSValue)

/-- The server at start. -/
def Server.start : Server :=
  { pending := [], db := [], trace := [] }

/-- The part of a handler before its `await`: normalise, then call
`Alert.create`; an error goes to the handler's `catch`. -/
def beginIngest (h : Host) (path : Path) (raw : JSValue) (s : Server) : Server :=
  match normalizeAlert h raw with
  | Except.ok data => { s with pending := s.pending ++ [(path, data)] }
  | Except.error e =>
    match path with
    | Path.mqtt => { s with trace := s.trace ++ [Event.badPayloadLog e] }
    | Path.post => { s with trace := s.trace ++ [Event.badRequest e] }

/-- The log line of the MQTT handler after the broadcast. It reads
`saved.ts.toISOString()`, which throws into the `catch` unless `ts` is a valid
date. -/
def savedLogEvent (saved : JSValue) : Event :=
  match getProp saved "ts" with
  | Except.ok (JSValue.date (some _)) => Event.savedLog saved
  | Except.ok (JSValue.date none) => Event.badPayloadLog JSError.rangeError
  | _ => Event.badPayloadLog JSError.typeError

/-- The part of a handler after its `await`: on a saved record broadcast it,
then log or answer; on a rejection go to the `catch`. -/
def finishIngest (path : Path) (outcome : Except JSError JSValue) (s : Server) : Server :=
  match outcome with
  | Except.ok saved =>
    let after : Event :=
      match path with
      | Path.mqtt => savedLogEvent saved
      | Path.post => Event.created saved
    { s with
      db := s.db ++ [saved]
      trace := s.trace ++ [Event.stored saved, Event.emitted "alert" saved, after] }
  | Except.error e =>
    match path with
    | Path.mqtt => { s with trace := s.trace ++ [Event.badPayloadLog e] }
    | Path.post => { s with trace := s.trace ++ [Event.badRequest e] }

/-- One turn of the event loop. -/
def step (h : Host) (s : Server) : Action → Server
  | Action.message (Except.error e) =>
    { s with trace := s.trace ++ [Event.badPayloadLog e] }
  | Action.message (Except.ok raw) => beginIngest h Path.mqtt raw s
  | Action.postAlert body => beginIngest h Path.post body s
  | Action.createSettles i outcome =>
    match s.pending.get? i with
    | some (path, _) => finishIngest path outcome { s with pending := s.pending.eraseIdx i }
    | none => s

/-- The MQTT message handler on the bytes of a payload, up to its `await`;
`parse` stands for `JSON.parse(payload.toString())`. -/
def onMessage (h : Host) (parse : List UInt8 → Except JSError JSValue) (s : Server)
    (payload : List UInt8) : Server :=
  step h s (Action.message (parse payload))

/-- The server after a run of turns. -/
def run (h : Host) (s : Server) (actions : List Action) : Server :=
  actions.foldl (step h) s

/-! ## The store (server.js) -/

/-- The values `AlertSchema` allows for `type`. -/
def typeEnum : List String :=
  ["SOS", "TECH", "FIRE", "MEDICAL", "RADIATION", "DEBRIS", "LOW_POWER", "SYSTEM_ALERT",
   "TEST", "OTHER"]

/-- The values `AlertSchema` allows for `source`. -/
def sourceEnum : List String :=
  ["satellite", "station", "mobile", "testbench", "unknown"]

/-- What validation makes of one path of the schema: the value to store, a
failed validator, or a value of another type than the path's, which mongoose
would cast first and which the model leaves out. -/
inductive PathCheck where
  | value (v : JSValue)
  | invalid
  | unmodelled

/-- A path `{ type: String, default: d }`, with `enum: allowed` when given. -/
def stringPath (d : String) (allowed : Option (List String)) : JSValue → PathCheck
  | JSValue.undefined => PathCheck.value (JSValue.str d)
  | JSValue.str s =>
    match allowed with
    | some values => if s ∈ values then PathCheck.value (JSValue.str s) else PathCheck.invalid
    | none => PathCheck.value (JSValue.str s)
  | _ => PathCheck.unmodelled

/-- A path `{ type: Number, required: true }`. -/
def requiredNumberPath : JSValue → PathCheck
  | JSValue.undefined => PathCheck.invalid
  | JSValue.num (JSNum.fin q) => PathCheck.value (JSValue.num (JSNum.fin q))
  | _ => PathCheck.unmodelled

/-- A path `{ type: Number, default: d, min: lo, max: hi }`. -/
def boundedNumberPath (d lo hi : ℚ) : JSValue → PathCheck
  | JSValue.undefined => PathCheck.value (JSValue.num (JSNum.fin d))
  | JSValue.num (JSNum.fin q) =>
    if lo ≤ q ∧ q ≤ hi then PathCheck.value (JSValue.num (JSNum.fin q)) else PathCheck.invalid
  | _ => PathCheck.unmodelled

/-- A path `{ type: Date, default: Date.now }`, at the time `now`. -/
def datePath (now : ℤ) : JSValue → PathCheck
  | JSValue.undefined => PathCheck.value (JSValue.date (some now))
  | JSValue.date (some ms) => PathCheck.value (JSValue.date (some ms))
  | _ => PathCheck.unmodelled

/-- The paths of `AlertSchema`, in its order, checked on a document. -/
def schemaChecks (now : ℤ) (data : JSValue) : List (String × PathCheck) :=
  [("type", stringPath "SOS" (some typeEnum) (field data "type")),
   ("msg", stringPath "Signal reçu" none (field data "msg")),
   ("lat", requiredNumberPath (field data "lat")),
   ("lng", requiredNumberPath (field data "lng")),
   ("ville", stringPath "Inconnue" none (field data "ville")),
   ("intensity", boundedNumberPath 1 0 5 (field data "intensity")),
   ("source", stringPath "unknown" (some sourceEnum) (field data "source")),
   ("ts", datePath now (field data "ts"))]

/-- Whether a check is outside the model. -/
def PathCheck.isUnmodelled : PathCheck → Bool
  | PathCheck.unmodelled => true
  | _ => false

/-- The paths whose validator failed. -/
def failedPaths : List (String × PathCheck) → List String
  | [] => []
  | (path, PathCheck.invalid) :: rest => path :: failedPaths rest
  | _ :: rest => failedPaths rest

/-- The properties to store. -/
def storedFields : List (String × PathCheck) → List (String × JSValue)
  | [] => []
  | (path, PathCheck.value v) :: rest => (path, v) :: storedFields rest
  | _ :: rest => storedFields rest

/-- The validation that `Alert.create(data)` runs under `AlertSchema`, at the
time `now` and with the fresh identifier `newId`: the document it saves, or
the `ValidationError` with the paths that failed. Properties outside the
schema are dropped. The result is `none` when `data` is not an object, brings
its own `_id`, or has a value that mongoose would have to cast. -/
def alertCreate (newId : JSValue) (now : ℤ) (data : JSValue) :
    Option (Except JSError JSValue) :=
  match data with
  | JSValue.obj fields =>
    if hasOwn fields "_id" then none
    else
      let checks := schemaChecks now data
      if checks.any (fun c => c.2.isUnmodelled) then none
      else if failedPaths checks = [] then
        some (Except.ok (JSValue.obj (storedFields checks ++ [("_id", newId)])))
      else some (Except.error (JSError.validationError (failedPaths checks)))
  | _ => none

/-- The time of a stored record in the order of `sort({ ts: -1 })`; a record
without a date comes last. -/
def timeOf (record : JSValue) : WithBot ℤ :=
  match field record "ts" with
  | JSValue.date (some ms) => (ms : WithBot ℤ)
  | _ => ⊥

/-- What the database promises of `sort({ ts: -1 })`, which is not code of
this repository: the result holds the records of the store, each as often
as the store does, and none comes before a more recent one. How records of
equal time are ordered is left to the database. -/
def SortsNewestFirst (sort : List JSValue → List JSValue) : Prop :=
  ∀ db, (sort db).Perm db ∧ (sort db).Pairwise (fun a b => timeOf b ≤ timeOf a)

/-- The query `Alert.find().sort({ ts: -1 }).limit(200)` on the records the
store holds, given the sort of the database: the first 200 records of the
sorted store. -/
def recentAlerts (sort : List JSValue → List JSValue) (db : List JSValue) : List JSValue :=
  (sort db).take 200

/-- How the query of `GET /alerts` ends: it rejects, or runs on the records
the store holds. -/
inductive StoreRead where
  | fails (e : JSError)
  | holds (db : List JSValue)

/-- The handler of `GET /alerts`, given the sort of the database: the status
and the body of its answer. -/
def getAlerts (sort : List JSValue → List JSValue) : StoreRead → Nat × JSValue
  | StoreRead.holds db => (200, JSValue.arr (recentAlerts sort db))
  | StoreRead.fails _ => (500, JSValue.obj [("error", JSValue.str "DB error")])

/-- One sort the database may use, for examples: records of equal time keep
the order of the store. -/
def stableNewestFirst (db : List JSValue) : List JSValue :=
  db.insertionSort (fun a b => timeOf b ≤ timeOf a)

/-! ## Notions the statements use -/

/-- The Number a field of the input coerces to, `Number(input.key)`. -/
def coerceField (h : Host) (input : JSValue) (key : String) : Except JSError JSNum :=
  match getProp input key with
  | Except.ok v => toNumber h v
  | Except.error e => Except.error e

/-- Whether `Number(input.key)` is a finite number. -/
def finiteField (h : Host) (input : JSValue) (key : String) : Bool :=
  match coerceField h input key with
  | Except.ok n => n.isFinite
  | Except.error _ => false

/-- Whether a computation returned rather than threw. -/
def returns {α : Type} : Except JSError α → Bool
  | Except.ok _ => true
  | Except.error _ => false

/-- The names of an object's own properties, in order. -/
def keys : JSValue → List String
  | JSValue.obj fields => fields.map Prod.fst
  | _ => []

/-- The payloads of the broadcasts in a trace, in order. -/
def broadcasts : List Event → List JSValue
  | [] => []
  | Event.emitted _ payload :: rest => payload :: broadcasts rest
  | _ :: rest => broadcasts rest

/-- Every broadcast in the trace is an `alert` event that comes right after
the store step returned its payload, a record the store holds. -/
def BroadcastsFollowStores (s : Server) : Prop :=
  ∀ pre n p post, s.trace = pre ++ Event.emitted n p :: post →
    n = "alert" ∧ (∃ before, pre = before ++ [Event.stored p]) ∧ p ∈ s.db

/-- The eight properties of its argument that `normalizeAlert` reads. -/
def recognisedKeys : List String :=
  ["type", "lat", "lng", "msg", "intensity", "source", "ville", "ts"]

/-- The input cut down to the eight properties `normalizeAlert` reads. -/
def project (v : JSValue) : JSValue :=
  JSValue.obj (recognisedKeys.map fun k => (k, field v k))

/-! ## A host to evaluate examples with -/

/-- The decimal digits of the fraction `q` in `[0, 1)`, at most `fuel` of
them. -/
def fractionDigits : Nat → ℚ → List Char
  | 0, _ => []
  | fuel + 1, q =>
    if q = 0 then []
    else
      let d : ℤ := ⌊q * 10⌋
      Char.ofNat (48 + d.toNat) :: fractionDigits fuel (q * 10 - d)

/-- A number in plain decimal notation, with at most twenty digits after
the point. -/
def plainDecimal (q : ℚ) : String :=
  let a : ℚ := |q|
  let whole : ℤ := ⌊a⌋
  let digits := fractionDigits 20 (a - whole)
  (if q < 0 then "-" else "") ++ toString whole.toNat ++
    (if digits = [] then "" else "." ++ String.mk digits)

/-- A host for examples: it upper-cases the letters `a` to `z`, prints
numbers in plain decimal notation, and reads no date format. -/
def asciiHost : Host where
  toUpperCase s := String.mk (s.toList.map Char.toUpper)
  numberToString := plainDecimal
  dateParse _ := none
  dateToString t :=
    match t with
    | some ms => "Date " ++ toString ms
    | none => "Invalid Date"

/-! ## Lemmas on the coercions -/

theorem getProp_obj (fields : List (String × JSValue)) (key : String) :
    getProp (JSValue.obj fields) key = Except.ok (ownProperty fields key) := rfl

theorem returns_eq_true {α : Type} {x : Except JSError α} :
    returns x = true ↔ ∃ a, x = Except.ok a := by
  cases x <;> simp [returns]

theorem returns_eq_false {α : Type} {x : Except JSError α} :
    returns x = false ↔ ∃ e, x = Except.error e := by
  cases x <;> simp [returns]

/-- What a successful call tells: the argument is an object, the
conversions returned, the coordinates are finite, and `out` is made of
them. -/
theorem normalizeAlert_ok_inv {h : Host} {arg out : JSValue}
    (hok : normalizeAlert h arg = Except.ok out) :
    ∃ (fields : List (String × JSValue)) (tyStr : String) (lat lng : ℚ) (n : JSNum)
      (extra : List (String × JSValue)),
      arg = JSValue.obj fields ∧
      toStringJS h (typeOperand (ownProperty fields "type")) = Except.ok tyStr ∧
      toNumber h (ownProperty fields "lat") = Except.ok (JSNum.fin lat) ∧
      toNumber h (ownProperty fields "lng") = Except.ok (JSNum.fin lng) ∧
      toNumber h (ownProperty fields "intensity") = Except.ok n ∧
      tsFields h (ownProperty fields "ts") = Except.ok extra ∧
      out = JSValue.obj (outFields h tyStr (JSNum.fin lat) (JSNum.fin lng)
        (ownProperty fields "msg") n (ownProperty fields "source")
        (ownProperty fields "ville") ++ extra) := by
  cases arg with
  | obj fields =>
    simp only [normalizeAlert, getProp_obj] at hok
    cases hty : toStringJS h (typeOperand (ownProperty fields "type")) with
    | error e => simp [hty] at hok
    | ok tyStr =>
      cases hlat : toNumber h (ownProperty fields "lat") with
      | error e => simp [hty, hlat] at hok
      | ok lat =>
        cases hlng : toNumber h (ownProperty fields "lng") with
        | error e => simp [hty, hlat, hlng] at hok
        | ok lng =>
          cases hn : toNumber h (ownProperty fields "intensity") with
          | error e =>
            simp only [hty, hlat, hlng, hn] at hok
            split at hok <;> simp at hok
          | ok n =>
            cases hts : tsFields h (ownProperty fields "ts") with
            | error e =>
              simp only [hty, hlat, hlng, hn, hts] at hok
              split at hok <;> simp at hok
            | ok extra =>
              simp only [hty, hlat, hlng, hn, hts] at hok
              cases lat <;> cases lng <;>
                simp [JSNum.isFinite] at hok
              exact ⟨fields, tyStr, _, _, n, extra, rfl, hty, hlat, hlng, hn, hts, hok.symm⟩
  | undefined => simp [normalizeAlert, getProp, ownProperty, typeOperand, JSValue.toBoolean,
      toStringJS, toNumber, JSNum.isFinite, latLngInvalides] at hok
  | null => simp [normalizeAlert, getProp] at hok
  | bool b => simp [normalizeAlert, getProp, typeOperand, JSValue.toBoolean,
      toStringJS, toNumber, JSNum.isFinite, latLngInvalides] at hok
  | num n => simp [normalizeAlert, getProp, typeOperand, JSValue.toBoolean,
      toStringJS, toNumber, JSNum.isFinite, latLngInvalides] at hok
  | str s => simp [normalizeAlert, getProp, typeOperand, JSValue.toBoolean,
      toStringJS, toNumber, JSNum.isFinite, latLngInvalides] at hok
  | arr xs => simp [normalizeAlert, getProp, typeOperand, JSValue.toBoolean,
      toStringJS, toNumber, JSNum.isFinite, latLngInvalides] at hok
  | date t => simp [normalizeAlert, getProp, typeOperand, JSValue.toBoolean,
      toStringJS, toNumber, JSNum.isFinite, latLngInvalides] at hok

/-- When the conversions return and the coordinates are finite, the call
returns the object made of them. -/
theorem normalizeAlert_ok_intro {h : Host} {fields : List (String × JSValue)}
    {tyStr : String} {lat lng : ℚ} {n : JSNum} {extra : List (String × JSValue)}
    (hty : toStringJS h (typeOperand (ownProperty fields "type")) = Except.ok tyStr)
    (hlat : toNumber h (ownProperty fields "lat") = Except.ok (JSNum.fin lat))
    (hlng : toNumber h (ownProperty fields "lng") = Except.ok (JSNum.fin lng))
    (hn : toNumber h (ownProperty fields "intensity") = Except.ok n)
    (hts : tsFields h (ownProperty fields "ts") = Except.ok extra) :
    normalizeAlert h (JSValue.obj fields) =
      Except.ok (JSValue.obj (outFields h tyStr (JSNum.fin lat) (JSNum.fin lng)
        (ownProperty fields "msg") n (ownProperty fields "source")
        (ownProperty fields "ville") ++ extra)) := by
  simp [normalizeAlert, getProp_obj, hty, hlat, hlng, hn, hts, JSNum.isFinite]

/-- The properties of `out` before `ts`, read back. -/
theorem field_out (h : Host) (tyStr : String) (lat lng : JSNum) (msgV : JSValue)
    (n : JSNum) (srcV villeV : JSValue) (extra : List (String × JSValue)) :
    let out := JSValue.obj (outFields h tyStr lat lng msgV n srcV villeV ++ extra)
    field out "type" = JSValue.str (h.toUpperCase tyStr) ∧
    field out "lat" = JSValue.num lat ∧
    field out "lng" = JSValue.num lng ∧
    field out "msg" = stringOr msgV "Signal reçu" ∧
    field out "intensity" = JSValue.num (normalizedIntensity n) ∧
    field out "source" = stringOr srcV "unknown" ∧
    field out "ville" = stringOr villeV "Inconnue" := by
  refine ⟨?_, ?_, ?_, ?_, ?_, ?_, ?_⟩ <;>
    simp [field, ownProperty, outFields, List.find?]

/-- The clamp of a finite intensity. -/
theorem normalizedIntensity_fin (x : ℚ) :
    normalizedIntensity (JSNum.fin x) =
      JSNum.fin (if x < 0 then 0 else if 5 < x then 5 else x) := by
  simp only [normalizedIntensity, JSNum.isFinite, JSNum.max, JSNum.min, if_true]
  congr 1
  by_cases h0 : x < 0
  · rw [if_pos h0, max_eq_left (le_of_lt h0)]
    exact min_eq_right (by norm_num)
  · rw [if_neg h0, max_eq_right (not_lt.mp h0)]
    by_cases h5 : 5 < x
    · rw [if_pos h5]; exact min_eq_left (le_of_lt h5)
    · rw [if_neg h5]; exact min_eq_right (not_lt.mp h5)

/-- The kept intensity is always a finite number from 0 to 5. -/
theorem normalizedIntensity_range (n : JSNum) :
    ∃ i : ℚ, normalizedIntensity n = JSNum.fin i ∧ 0 ≤ i ∧ i ≤ 5 := by
  cases n with
  | fin x =>
    refine ⟨_, normalizedIntensity_fin x, ?_, ?_⟩
    · split_ifs <;> linarith
    · split_ifs <;> linarith
  | nan => exact ⟨1, rfl, by norm_num, by norm_num⟩
  | posInf => exact ⟨1, rfl, by norm_num, by norm_num⟩
  | negInf => exact ⟨1, rfl, by norm_num, by norm_num⟩

/-- The `ts` step returns when `new Date` does. -/
theorem tsFields_returns {h : Host} {tsV : JSValue}
    (hd : returns (newDate h tsV) = true) : returns (tsFields h tsV) = true := by
  unfold tsFields
  cases hn : newDate h tsV with
  | error e => simp [hn, returns] at hd
  | ok t => cases t <;> split <;> simp [returns]

/-- The `ts` step adds nothing or one valid date. -/
theorem tsFields_inv {h : Host} {tsV : JSValue} {extra : List (String × JSValue)}
    (hts : tsFields h tsV = Except.ok extra) :
    extra = [] ∨ ∃ ms : ℤ, extra = [("ts", JSValue.date (some ms))] := by
  unfold tsFields at hts
  split at hts
  · split at hts
    · simp at hts
    · rename_i ms _
      right
      exact ⟨ms, by simpa using hts.symm⟩
    · left; simpa using hts.symm
  · left; simpa using hts.symm

/-- The pattern `typeof v === "string" ? v : d` gives a string. -/
theorem stringOr_isString (v : JSValue) (d : String) : (stringOr v d).isString = true := by
  unfold stringOr
  split
  · assumption
  · rfl

/-- Applying the pattern twice changes nothing. -/
theorem stringOr_stringOr (v : JSValue) (d : String) :
    stringOr (stringOr v d) d = stringOr v d := by
  have hs := stringOr_isString v d
  show (if (stringOr v d).isString then stringOr v d else JSValue.str d) = stringOr v d
  rw [if_pos hs]

/-- Clamping a kept intensity changes nothing. -/
theorem normalizedIntensity_idem (n : JSNum) :
    normalizedIntensity (normalizedIntensity n) = normalizedIntensity n := by
  obtain ⟨i, hi, h0, h5⟩ := normalizedIntensity_range n
  rw [hi, normalizedIntensity_fin, if_neg (not_lt.mpr h0), if_neg (not_lt.mpr h5)]

/-- `Number` reads `[object Object]` as `NaN`. -/
theorem stringToNumber_object : stringToNumber "[object Object]" = JSNum.nan := by
  decide

/-- `Number` reads the empty string as 0. -/
theorem stringToNumber_empty : stringToNumber "" = JSNum.fin 0 := by
  decide

/-- Codes 65 to 90 are characters with that code. -/
theorem toNat_ofNat_upper : ∀ k < 91, 65 ≤ k → (Char.ofNat k).toNat = k := by
  decide

/-- Upper-casing an ASCII upper-cased character changes nothing. -/
theorem toUpper_toUpper (c : Char) : Char.toUpper (Char.toUpper c) = Char.toUpper c := by
  by_cases hc : c.toNat ≥ 97 ∧ c.toNat ≤ 122
  · have e : Char.toUpper c = Char.ofNat (c.toNat - 32) := by simp [Char.toUpper, hc]
    have hk := toNat_ofNat_upper (c.toNat - 32) (by omega) (by omega)
    rw [e]
    simp only [Char.toUpper, hk]
    rw [if_neg (by omega)]
  · have e : Char.toUpper c = c := by simp only [Char.toUpper]; rw [if_neg hc]
    rw [e, e]

/-- The host for examples upper-cases idempotently. -/
theorem asciiHost_toUpperCase_idem (s : String) :
    asciiHost.toUpperCase (asciiHost.toUpperCase s) = asciiHost.toUpperCase s := by
  show String.mk ((String.mk (s.toList.map Char.toUpper)).toList.map Char.toUpper) =
    String.mk (s.toList.map Char.toUpper)
  congr 1
  show (s.toList.map Char.toUpper).map Char.toUpper = s.toList.map Char.toUpper
  rw [List.map_map]
  apply List.map_congr_left
  intro c _
  exact toUpper_toUpper c

/-- The property `ts` of `out` is what the `ts` step added. -/
theorem ownProperty_out_ts (h : Host) (tyStr : String) (lat lng : JSNum) (msgV : JSValue)
    (n : JSNum) (srcV villeV : JSValue) (extra : List (String × JSValue)) :
    ownProperty (outFields h tyStr lat lng msgV n srcV villeV ++ extra) "ts" =
      ownProperty extra "ts" := by
  simp [ownProperty, outFields, List.find?]

/-- Running the `ts` step on what it added gives it again. -/
theorem tsFields_again {h : Host} {tsV : JSValue} {extra : List (String × JSValue)}
    (hts : tsFields h tsV = Except.ok extra) :
    tsFields h (ownProperty extra "ts") = Except.ok extra := by
  rcases tsFields_inv hts with rfl | ⟨ms, rfl⟩
  · rfl
  · rfl

/-- `String` of a string that is not empty, under `|| "SOS"`. -/
theorem toStringJS_typeOperand_str (h : Host) (s : String) (hs : s ≠ "") :
    toStringJS h (typeOperand (JSValue.str s)) = Except.ok s := by
  simp [typeOperand, JSValue.toBoolean, hs, toStringJS]

/-- The intensity of a brightness that reads as the finite number `b`. -/
theorem fireIntensity_fin (s : String) (b : ℚ) (hb : stringToNumber s = JSNum.fin b) :
    fireIntensity (JSValue.str s) =
      JSNum.fin (min 5 ((⌊(b - 300) / 50 + 1 / 2⌋ : ℤ) : ℚ)) := by
  simp only [fireIntensity, columnNumber, hb, JSNum.sub, JSNum.div, JSNum.round, JSNum.min]
  norm_num

/-- `Number` reads `"100"` as 100. -/
theorem stringToNumber_100 : stringToNumber "100" = JSNum.fin 100 := by
  simp [stringToNumber, trimBoth, trimStart, isJSWhitespace, scanSigned, scanUnsigned,
    scanDigits, digitValue, scanExponent, decimalValue, overflows, overflowBound]

/-- `Number` reads `"350"` as 350. -/
theorem stringToNumber_350 : stringToNumber "350" = JSNum.fin 350 := by
  simp [stringToNumber, trimBoth, trimStart, isJSWhitespace, scanSigned, scanUnsigned,
    scanDigits, digitValue, scanExponent, decimalValue, overflows, overflowBound]

/-- A text without the separator is one piece. -/
theorem splitChars_of_not_mem (sep : Char) (l : List Char) (hl : sep ∉ l) :
    splitChars sep l = [l] := by
  induction l with
  | nil => rfl
  | cons c cs ih =>
    have hc : c ≠ sep := fun e => hl (by rw [e]; exact List.mem_cons_self _ _)
    have hcs : sep ∉ cs := fun hm => hl (List.mem_cons_of_mem _ hm)
    simp [splitChars, hc, ih hcs]

/-- A text without the separator, then a separator: the first piece. -/
theorem splitChars_append (sep : Char) (l r : List Char) (hl : sep ∉ l) :
    splitChars sep (l ++ sep :: r) = l :: splitChars sep r := by
  induction l with
  | nil => simp [splitChars]
  | cons c cs ih =>
    have hc : c ≠ sep := fun e => hl (by rw [e]; exact List.mem_cons_self _ _)
    have hcs : sep ∉ cs := fun hm => hl (List.mem_cons_of_mem _ hm)
    simp [splitChars, hc, ih hcs]

/-- The lines of a feed text are its header and its rows. -/
theorem split_feedText (header : String) (rows : List String)
    (hh : '\n' ∉ header.toList) (hr : ∀ r ∈ rows, '\n' ∉ r.toList) :
    split (feedText header rows) '\n' = header :: rows := by
  induction rows generalizing header with
  | nil =>
    simp only [split, feedText, joinWith]
    rw [splitChars_of_not_mem _ _ hh]
    rfl
  | cons r rs ih =>
    have hr0 : '\n' ∉ r.toList := hr r (List.mem_cons_self _ _)
    have hrs : ∀ x ∈ rs, '\n' ∉ x.toList := fun x hx => hr x (List.mem_cons_of_mem _ hx)
    have ih' := ih r hr0 hrs
    simp only [split, feedText] at ih' ⊢
    have e : (joinWith "\n" (header :: r :: rs)).toList =
        header.toList ++ '\n' :: (joinWith "\n" (r :: rs)).toList := by
      simp [joinWith, String.toList]
    rw [e, splitChars_append _ _ _ hh, List.map_cons, ih']
    rfl

/-- The alerts of a feed text are those of its first nine rows. -/
theorem fireAlerts_feedText (header : String) (rows : List String)
    (hh : '\n' ∉ header.toList) (hr : ∀ r ∈ rows, '\n' ∉ r.toList) :
    fireAlerts (feedText header rows) = (rows.take 9).map fireAlert := by
  simp only [fireAlerts, slice, split_feedText header rows hh hr]
  congr 1

/-- There are never more than nine alerts. -/
theorem fireAlerts_length_le (csv : String) : (fireAlerts csv).length ≤ 9 := by
  simp only [fireAlerts, slice, List.length_map, List.length_drop, List.length_take]
  omega

/-- The broadcasts of a trace in two parts. -/
theorem broadcasts_append (a b : List Event) :
    broadcasts (a ++ b) = broadcasts a ++ broadcasts b := by
  induction a with
  | nil => rfl
  | cons e es ih => cases e <;> simp [broadcasts, ih]

/-- The log line after a broadcast is not a broadcast. -/
theorem savedLogEvent_ne_emitted (saved : JSValue) (n : String) (p : JSValue) :
    savedLogEvent saved ≠ Event.emitted n p := by
  unfold savedLogEvent
  split <;> simp

/-- Appending events keeps the order property, when each broadcast among
them follows its store among them. -/
theorem follow_append (s : Server) (es : List Event) (db : List JSValue)
    (pending : List (Path × JSValue))
    (hs : BroadcastsFollowStores s) (hdb : ∀ p ∈ s.db, p ∈ db)
    (hes : ∀ pre n p post, es = pre ++ Event.emitted n p :: post →
      n = "alert" ∧ (∃ before, pre = before ++ [Event.stored p]) ∧ p ∈ db) :
    BroadcastsFollowStores { pending := pending, db := db, trace := s.trace ++ es } := by
  intro pre n p post heq
  simp only at heq
  rcases List.append_eq_append_iff.mp heq with ⟨a, hpre, hrest⟩ | ⟨c, ht, hc⟩
  · obtain ⟨hn, ⟨before, hb⟩, hp⟩ := hes a n p post hrest
    refine ⟨hn, ⟨s.trace ++ before, ?_⟩, hp⟩
    rw [hpre, hb, List.append_assoc]
  · cases c with
    | nil =>
      obtain ⟨-, ⟨before, hb⟩, -⟩ := hes [] n p post (by simpa using hc.symm)
      simp at hb
    | cons e c =>
      simp only [List.cons_append, List.cons.injEq] at hc
      obtain ⟨hn, hb, hp⟩ := hs pre n p (c) (by rw [ht, hc.1])
      exact ⟨hn, hb, hdb p hp⟩

/-- One event that is not a broadcast holds no broadcast. -/
theorem no_broadcast_in_single (e : Event) (db : List JSValue)
    (he : ∀ n p, e ≠ Event.emitted n p) :
    ∀ pre n p post, [e] = pre ++ Event.emitted n p :: post →
      n = "alert" ∧ (∃ before, pre = before ++ [Event.stored p]) ∧ p ∈ db := by
  intro pre n p post heq
  cases pre with
  | nil =>
    simp only [List.nil_append, List.cons.injEq] at heq
    exact absurd heq.1 (he n p)
  | cons a pre =>
    simp only [List.cons_append, List.cons.injEq] at heq
    have := heq.2
    cases pre <;> simp at this

/-- The three events of a successful store step hold one broadcast, after
its store. -/
theorem one_broadcast_in_triple (saved : JSValue) (after : Event) (db : List JSValue)
    (hafter : ∀ n p, after ≠ Event.emitted n p) (hmem : saved ∈ db) :
    ∀ pre n p post,
      [Event.stored saved, Event.emitted "alert" saved, after] =
        pre ++ Event.emitted n p :: post →
      n = "alert" ∧ (∃ before, pre = before ++ [Event.stored p]) ∧ p ∈ db := by
  intro pre n p post heq
  cases pre with
  | nil => simp at heq
  | cons a pre =>
    cases pre with
    | nil =>
      simp only [List.cons_append, List.nil_append, List.cons.injEq, Event.emitted.injEq] at heq
      obtain ⟨ha, ⟨hn, hp⟩, -⟩ := heq
      subst ha hn hp
      exact ⟨rfl, ⟨[], rfl⟩, hmem⟩
    | cons b pre =>
      cases pre with
      | nil =>
        simp only [List.cons_append, List.nil_append, List.cons.injEq] at heq
        exact absurd heq.2.2.1 (hafter n p)
      | cons c pre =>
        simp only [List.cons_append, List.cons.injEq] at heq
        have := heq.2.2.2
        cases pre <;> simp at this

/-- The part of a handler before its `await` broadcasts nothing and stores
nothing. -/
theorem beginIngest_quiet (h : Host) (path : Path) (raw : JSValue) (s : Server) :
    broadcasts (beginIngest h path raw s).trace = broadcasts s.trace ∧
    (beginIngest h path raw s).db = s.db := by
  unfold beginIngest
  cases normalizeAlert h raw with
  | ok data => exact ⟨rfl, rfl⟩
  | error e => cases path <;> simp [broadcasts_append, broadcasts]

/-- The part of a handler before its `await` keeps the order property. -/
theorem beginIngest_follow (h : Host) (path : Path) (raw : JSValue) (s : Server)
    (hs : BroadcastsFollowStores s) : BroadcastsFollowStores (beginIngest h path raw s) := by
  unfold beginIngest
  cases normalizeAlert h raw with
  | ok data => exact hs
  | error e =>
    cases path
    · exact follow_append s _ s.db s.pending hs (fun _ hp => hp)
        (no_broadcast_in_single _ _ (by simp))
    · exact follow_append s _ s.db s.pending hs (fun _ hp => hp)
        (no_broadcast_in_single _ _ (by simp))

/-- The part of a handler after its `await` keeps the order property. -/
theorem finishIngest_follow (path : Path) (outcome : Except JSError JSValue) (s : Server)
    (hs : BroadcastsFollowStores s) : BroadcastsFollowStores (finishIngest path outcome s) := by
  unfold finishIngest
  cases outcome with
  | error e =>
    cases path
    · exact follow_append s _ s.db s.pending hs (fun _ hp => hp)
        (no_broadcast_in_single _ _ (by simp))
    · exact follow_append s _ s.db s.pending hs (fun _ hp => hp)
        (no_broadcast_in_single _ _ (by simp))
  | ok saved =>
    apply follow_append s _ (s.db ++ [saved]) s.pending hs
      (fun _ hp => List.mem_append_left _ hp)
    apply one_broadcast_in_triple
    · intro n p
      cases path
      · exact savedLogEvent_ne_emitted saved n p
      · simp
    · simp

/-- The part of a handler after its `await` broadcasts what it stores. -/
theorem finishIngest_broadcasts (path : Path) (outcome : Except JSError JSValue) (s : Server)
    (hs : broadcasts s.trace = s.db) :
    broadcasts (finishIngest path outcome s).trace = (finishIngest path outcome s).db := by
  unfold finishIngest
  cases outcome with
  | error e => cases path <;> simp [broadcasts_append, broadcasts, hs]
  | ok saved =>
    have hafter : ∀ e : Event, (∀ n p, e ≠ Event.emitted n p) → broadcasts [e] = [] := by
      intro e he
      cases e <;> simp [broadcasts] at he ⊢
    have h3 : ∀ e : Event, (∀ n p, e ≠ Event.emitted n p) →
        broadcasts [Event.stored saved, Event.emitted "alert" saved, e] = [saved] := by
      intro e he
      have := hafter e he
      simp only [broadcasts] at this ⊢
    cases path
    · simp only [broadcasts_append, hs]
      rw [h3 _ (savedLogEvent_ne_emitted saved)]
    · simp only [broadcasts_append, hs]
      rw [h3 _ (by simp)]

/-- One turn of the event loop keeps both properties. -/
theorem step_invariant (h : Host) (s : Server) (a : Action)
    (hs : BroadcastsFollowStores s ∧ broadcasts s.trace = s.db) :
    BroadcastsFollowStores (step h s a) ∧ broadcasts (step h s a).trace = (step h s a).db := by
  cases a with
  | message parsed =>
    cases parsed with
    | error e =>
      refine ⟨follow_append s _ s.db s.pending hs.1 (fun _ hp => hp)
        (no_broadcast_in_single _ _ (by simp)), ?_⟩
      simp [step, broadcasts_append, broadcasts, hs.2]
    | ok raw =>
      refine ⟨beginIngest_follow h _ raw s hs.1, ?_⟩
      obtain ⟨hb, hd⟩ := beginIngest_quiet h Path.mqtt raw s
      show broadcasts (beginIngest h Path.mqtt raw s).trace = (beginIngest h Path.mqtt raw s).db
      rw [hb, hd, hs.2]
  | postAlert body =>
    refine ⟨beginIngest_follow h _ body s hs.1, ?_⟩
    obtain ⟨hb, hd⟩ := beginIngest_quiet h Path.post body s
    show broadcasts (beginIngest h Path.post body s).trace = (beginIngest h Path.post body s).db
    rw [hb, hd, hs.2]
  | createSettles i outcome =>
    simp only [step]
    cases hp : s.pending.get? i with
    | none => exact hs
    | some pd =>
      obtain ⟨path, data⟩ := pd
      exact ⟨finishIngest_follow path outcome _ hs.1, finishIngest_broadcasts path outcome _ hs.2⟩

/-- A run of turns keeps both properties. -/
theorem run_invariant (h : Host) (actions : List Action) (s : Server)
    (hs : BroadcastsFollowStores s ∧ broadcasts s.trace = s.db) :
    BroadcastsFollowStores (run h s actions) ∧
      broadcasts (run h s actions).trace = (run h s actions).db := by
  induction actions generalizing s with
  | nil => exact hs
  | cons a rest ih => exact ih (step h s a) (step_invariant h s a hs)

/-- The server at start has both properties. -/
theorem start_invariant :
    BroadcastsFollowStores Server.start ∧ broadcasts Server.start.trace = Server.start.db := by
  refine ⟨?_, rfl⟩
  intro pre n p post heq
  simp [Server.start] at heq

/-- On an input that is not `null`, `normalizeAlert` sees the eight
properties only. -/
theorem normalizeAlert_project (h : Host) (a : JSValue) (ha : a ≠ JSValue.null) :
    normalizeAlert h a = normalizeAlert h (project a) := by
  cases a with
  | null => exact absurd rfl ha
  | obj fields =>
    simp only [normalizeAlert, getProp_obj, project, field, recognisedKeys, List.map]
    have e : ∀ k ∈ recognisedKeys,
        ownProperty [("type", ownProperty fields "type"), ("lat", ownProperty fields "lat"),
          ("lng", ownProperty fields "lng"), ("msg", ownProperty fields "msg"),
          ("intensity", ownProperty fields "intensity"),
          ("source", ownProperty fields "source"), ("ville", ownProperty fields "ville"),
          ("ts", ownProperty fields "ts")] k = ownProperty fields k := by
      intro k hk
      simp only [recognisedKeys, List.mem_cons, List.mem_singleton, List.not_mem_nil,
        or_false] at hk
      rcases hk with rfl | rfl | rfl | rfl | rfl | rfl | rfl | rfl <;> rfl
    rw [e "type" (by decide), e "lat" (by decide), e "lng" (by decide), e "msg" (by decide),
      e "intensity" (by decide), e "source" (by decide), e "ville" (by decide),
      e "ts" (by decide)]
  | undefined => rfl
  | bool b => rfl
  | num n => rfl
  | str s => rfl
  | arr xs => rfl
  | date t => rfl

/-- The names of the properties of `out`. -/
theorem keys_out (h : Host) (tyStr : String) (lat lng : JSNum) (msgV : JSValue)
    (n : JSNum) (srcV villeV : JSValue) (extra : List (String × JSValue)) :
    keys (JSValue.obj (outFields h tyStr lat lng msgV n srcV villeV ++ extra)) =
      ["type", "lat", "lng", "msg", "intensity", "source", "ville"] ++ extra.map Prod.fst := by
  simp [keys, outFields]

/-- The names of the properties of an alert that `normalizeAlert` returns. -/
theorem keys_of_normalizeAlert {h : Host} {arg out : JSValue}
    (hok : normalizeAlert h arg = Except.ok out) :
    keys out = ["type", "lat", "lng", "msg", "intensity", "source", "ville"] ∨
    keys out = ["type", "lat", "lng", "msg", "intensity", "source", "ville", "ts"] := by
  obtain ⟨fields, tyStr, lat, lng, n, extra, rfl, -, -, -, -, hts, rfl⟩ :=
    normalizeAlert_ok_inv hok
  rw [keys_out]
  rcases tsFields_inv hts with rfl | ⟨ms, rfl⟩
  · left; rfl
  · right; rfl

/-- One turn of the event loop keeps every pending store step on an alert
that `normalizeAlert` returned. -/
theorem step_pending (h : Host) (s : Server) (a : Action)
    (hs : ∀ pd ∈ s.pending, ∃ raw, normalizeAlert h raw = Except.ok pd.2) :
    ∀ pd ∈ (step h s a).pending, ∃ raw, normalizeAlert h raw = Except.ok pd.2 := by
  have hbegin : ∀ path raw, ∀ pd ∈ (beginIngest h path raw s).pending,
      ∃ raw, normalizeAlert h raw = Except.ok pd.2 := by
    intro path raw pd hpd
    unfold beginIngest at hpd
    cases hn : normalizeAlert h raw with
    | ok data =>
      simp only [hn, List.mem_append, List.mem_singleton] at hpd
      rcases hpd with hpd | rfl
      · exact hs pd hpd
      · exact ⟨raw, hn⟩
    | error e =>
      simp only [hn] at hpd
      cases path <;> exact hs pd hpd
  cases a with
  | message parsed =>
    cases parsed with
    | error e => exact hs
    | ok raw => exact hbegin Path.mqtt raw
  | postAlert body => exact hbegin Path.post body
  | createSettles i outcome =>
    intro pd hpd
    simp only [step] at hpd
    cases hp : s.pending.get? i with
    | none =>
      rw [hp] at hpd
      exact hs pd hpd
    | some entry =>
      rw [hp] at hpd
      obtain ⟨path, data⟩ := entry
      have hsub : pd ∈ s.pending.eraseIdx i := by
        unfold finishIngest at hpd
        cases outcome <;> cases path <;> exact hpd
      exact hs pd (List.mem_of_mem_eraseIdx hsub)

/-- A run of turns keeps every pending store step on an alert that
`normalizeAlert` returned. -/
theorem run_pending (h : Host) (actions : List Action) (s : Server)
    (hs : ∀ pd ∈ s.pending, ∃ raw, normalizeAlert h raw = Except.ok pd.2) :
    ∀ pd ∈ (run h s actions).pending, ∃ raw, normalizeAlert h raw = Except.ok pd.2 := by
  induction actions generalizing s with
  | nil => exact hs
  | cons a rest ih => exact ih (step h s a) (step_pending h s a hs)

/-- The pattern `typeof v === "string" ? v : d` gives a string, `v` itself
when it is one. -/
theorem stringOr_eq_str (v : JSValue) (d : String) :
    ∃ s, stringOr v d = JSValue.str s ∧ ∀ t, v = JSValue.str t → s = t := by
  cases v with
  | str t => exact ⟨t, rfl, fun u hu => by cases hu; rfl⟩
  | undefined => exact ⟨d, rfl, fun u hu => by cases hu⟩
  | null => exact ⟨d, rfl, fun u hu => by cases hu⟩
  | bool b => exact ⟨d, rfl, fun u hu => by cases hu⟩
  | num n => exact ⟨d, rfl, fun u hu => by cases hu⟩
  | arr xs => exact ⟨d, rfl, fun u hu => by cases hu⟩
  | obj fs => exact ⟨d, rfl, fun u hu => by cases hu⟩
  | date t => exact ⟨d, rfl, fun u hu => by cases hu⟩

/-- What `Alert.create` makes of an alert with the properties that
`normalizeAlert` gives: it saves the alert when `type` and `source` are in the
enumerations of the schema, and fails on those that are not. -/
theorem alertCreate_out (newId : JSValue) (now : ℤ) (ty msg src ville : String)
    (lat lng i : ℚ) (h0 : 0 ≤ i) (h5 : i ≤ 5) (extra : List (String × JSValue))
    (hex : extra = [] ∨ ∃ ms : ℤ, extra = [("ts", JSValue.date (some ms))]) :
    ∃ tsV, alertCreate newId now (JSValue.obj
        ([("type", JSValue.str ty), ("lat", JSValue.num (JSNum.fin lat)),
          ("lng", JSValue.num (JSNum.fin lng)), ("msg", JSValue.str msg),
          ("intensity", JSValue.num (JSNum.fin i)), ("source", JSValue.str src),
          ("ville", JSValue.str ville)] ++ extra)) =
      some (if ty ∈ typeEnum then
          if src ∈ sourceEnum then
            Except.ok (JSValue.obj
              [("type", JSValue.str ty), ("msg", JSValue.str msg),
               ("lat", JSValue.num (JSNum.fin lat)), ("lng", JSValue.num (JSNum.fin lng)),
               ("ville", JSValue.str ville), ("intensity", JSValue.num (JSNum.fin i)),
               ("source", JSValue.str src), ("ts", tsV), ("_id", newId)])
          else Except.error (JSError.validationError ["source"])
        else
          if src ∈ sourceEnum then Except.error (JSError.validationError ["type"])
          else Except.error (JSError.validationError ["type", "source"])) := by
  rcases hex with rfl | ⟨ms, rfl⟩
  · refine ⟨JSValue.date (some now), ?_⟩
    by_cases ht : ty ∈ typeEnum <;> by_cases hs : src ∈ sourceEnum <;>
      simp [alertCreate, hasOwn, schemaChecks, field, ownProperty, stringPath,
        requiredNumberPath, boundedNumberPath, datePath, PathCheck.isUnmodelled,
        failedPaths, storedFields, ht, hs, h0, h5]
  · refine ⟨JSValue.date (some ms), ?_⟩
    by_cases ht : ty ∈ typeEnum <;> by_cases hs : src ∈ sourceEnum <;>
      simp [alertCreate, hasOwn, schemaChecks, field, ownProperty, stringPath,
        requiredNumberPath, boundedNumberPath, datePath, PathCheck.isUnmodelled,
        failedPaths, storedFields, ht, hs, h0, h5]

mutual

/-- `String` throws nothing but a `TypeError`. -/
theorem toStringJS_error (h : Host) :
    ∀ (v : JSValue) (e : JSError), toStringJS h v = Except.error e → e = JSError.typeError
  | JSValue.undefined, e, he => by simp [toStringJS] at he
  | JSValue.null, e, he => by simp [toStringJS] at he
  | JSValue.bool b, e, he => by simp [toStringJS] at he
  | JSValue.num n, e, he => by simp [toStringJS] at he
  | JSValue.str s, e, he => by simp [toStringJS] at he
  | JSValue.date t, e, he => by simp [toStringJS] at he
  | JSValue.obj fields, e, he => by
    simp only [toStringJS] at he
    split at he
    · cases he; rfl
    · simp at he
  | JSValue.arr items, e, he => by
    simp only [toStringJS] at he
    cases hi : itemStrings h items with
    | ok ss => simp [hi] at he
    | error e2 =>
      simp only [hi, Except.error.injEq] at he
      subst he
      exact itemStrings_error h items e2 hi

/-- Joining an array throws nothing but a `TypeError`. -/
theorem itemStrings_error (h : Host) :
    ∀ (vs : List JSValue) (e : JSError), itemStrings h vs = Except.error e →
      e = JSError.typeError
  | [], e, he => by simp [itemStrings] at he
  | v :: rest, e, he => by
    have hv := toStringJS_error h v
    have hr := itemStrings_error h rest
    cases v with
    | undefined =>
      simp only [itemStrings] at he
      cases hi : itemStrings h rest with
      | ok ss => simp [hi] at he
      | error e2 =>
        simp only [hi, Except.error.injEq] at he
        subst he
        exact hr _ hi
    | null =>
      simp only [itemStrings] at he
      cases hi : itemStrings h rest with
      | ok ss => simp [hi] at he
      | error e2 =>
        simp only [hi, Except.error.injEq] at he
        subst he
        exact hr _ hi
    | bool b =>
      simp only [itemStrings] at he
      cases hs : toStringJS h (JSValue.bool b) with
      | error e1 =>
        simp only [hs, Except.error.injEq] at he
        subst he
        exact hv _ hs
      | ok s1 =>
        simp only [hs] at he
        cases hi : itemStrings h rest with
        | ok ss => simp [hi] at he
        | error e2 =>
          simp only [hi, Except.error.injEq] at he
          subst he
          exact hr _ hi
    | num n =>
      simp only [itemStrings] at he
      cases hs : toStringJS h (JSValue.num n) with
      | error e1 =>
        simp only [hs, Except.error.injEq] at he
        subst he
        exact hv _ hs
      | ok s1 =>
        simp only [hs] at he
        cases hi : itemStrings h rest with
        | ok ss => simp [hi] at he
        | error e2 =>
          simp only [hi, Except.error.injEq] at he
          subst he
          exact hr _ hi
    | str s =>
      simp only [itemStrings] at he
      cases hs : toStringJS h (JSValue.str s) with
      | error e1 =>
        simp only [hs, Except.error.injEq] at he
        subst he
        exact hv _ hs
      | ok s1 =>
        simp only [hs] at he
        cases hi : itemStrings h rest with
        | ok ss => simp [hi] at he
        | error e2 =>
          simp only [hi, Except.error.injEq] at he
          subst he
          exact hr _ hi
    | arr xs =>
      simp only [itemStrings] at he
      cases hs : toStringJS h (JSValue.arr xs) with
      | error e1 =>
        simp only [hs, Except.error.injEq] at he
        subst he
        exact hv _ hs
      | ok s1 =>
        simp only [hs] at he
        cases hi : itemStrings h rest with
        | ok ss => simp [hi] at he
        | error e2 =>
          simp only [hi, Except.error.injEq] at he
          subst he
          exact hr _ hi
    | obj fs =>
      simp only [itemStrings] at he
      cases hs : toStringJS h (JSValue.obj fs) with
      | error e1 =>
        simp only [hs, Except.error.injEq] at he
        subst he
        exact hv _ hs
      | ok s1 =>
        simp only [hs] at he
        cases hi : itemStrings h rest with
        | ok ss => simp [hi] at he
        | error e2 =>
          simp only [hi, Except.error.injEq] at he
          subst he
          exact hr _ hi
    | date t =>
      simp only [itemStrings] at he
      cases hs : toStringJS h (JSValue.date t) with
      | error e1 =>
        simp only [hs, Except.error.injEq] at he
        subst he
        exact hv _ hs
      | ok s1 =>
        simp only [hs] at he
        cases hi : itemStrings h rest with
        | ok ss => simp [hi] at he
        | error e2 =>
          simp only [hi, Except.error.injEq] at he
          subst he
          exact hr _ hi

end

/-- `Number` throws nothing but a `TypeError`. -/
theorem toNumber_error (h : Host) (v : JSValue) (e : JSError)
    (he : toNumber h v = Except.error e) : e = JSError.typeError := by
  cases v with
  | undefined => simp [toNumber] at he
  | null => simp [toNumber] at he
  | bool b => simp [toNumber] at he
  | num n => simp [toNumber] at he
  | str s => simp [toNumber] at he
  | date t => cases t <;> simp [toNumber] at he
  | arr xs =>
    simp only [toNumber] at he
    cases hs : toStringJS h (JSValue.arr xs) with
    | ok s => simp [hs] at he
    | error e1 =>
      simp only [hs, Except.error.injEq] at he
      subst he
      exact toStringJS_error h _ _ hs
  | obj fs =>
    simp only [toNumber] at he
    cases hs : toStringJS h (JSValue.obj fs) with
    | ok s => simp [hs] at he
    | error e1 =>
      simp only [hs, Except.error.injEq] at he
      subst he
      exact toStringJS_error h _ _ hs

/-- The sort for examples keeps what the database promises. -/
theorem stableNewestFirst_sorts : SortsNewestFirst stableNewestFirst := by
  intro db
  haveI : IsTotal JSValue (fun a b => timeOf b ≤ timeOf a) := ⟨fun a b => le_total _ _⟩
  haveI : IsTrans JSValue (fun a b => timeOf b ≤ timeOf a) :=
    ⟨fun a b c hab hbc => le_trans hbc hab⟩
  exact ⟨List.perm_insertionSort _ db, List.sorted_insertionSort _ db⟩

/-! ## C1: bad coordinates are rejected -/

/-- C1, refuted: on `{type: {toString: 1}, lat: "abc", lng: 2}`, whose `lat`
does not coerce to a finite number, `normalizeAlert` fails with the
`TypeError` of `String(input.type)`, thrown before the coordinate check, and
not with the validation error `lat/lng invalides`. -/
theorem normalizeAlert_type_error_before_coordinates :
    finiteField asciiHost (JSValue.obj
      [("type", JSValue.obj [("toString", JSValue.num (JSNum.fin 1))]),
       ("lat", JSValue.str "abc"), ("lng", JSValue.num (JSNum.fin 2))]) "lat" = false ∧
    normalizeAlert asciiHost (JSValue.obj
      [("type", JSValue.obj [("toString", JSValue.num (JSNum.fin 1))]),
       ("lat", JSValue.str "abc"), ("lng", JSValue.num (JSNum.fin 2))])
      = Except.error JSError.typeError ∧
    JSError.typeError ≠ latLngInvalides := by
  refine ⟨by decide, rfl, by decide⟩

/-- C1, amended. For every input map whose `lat` or `lng` is missing or does
not coerce to a finite number, `normalizeAlert` throws and returns no alert.
The error is the validation error `lat/lng invalides` when
`String(input.type || "SOS")`, `Number(input.lat)` and `Number(input.lng)`
return, and the `TypeError` of the conversion when one of them throws. -/
theorem normalizeAlert_rejects_bad_coordinates (h : Host)
    (fields : List (String × JSValue))
    (hbad : finiteField h (JSValue.obj fields) "lat" = false ∨
      finiteField h (JSValue.obj fields) "lng" = false) :
    returns (normalizeAlert h (JSValue.obj fields)) = false ∧
    (returns (toStringJS h (typeOperand (ownProperty fields "type"))) = true →
      returns (coerceField h (JSValue.obj fields) "lat") = true →
      returns (coerceField h (JSValue.obj fields) "lng") = true →
      normalizeAlert h (JSValue.obj fields) = Except.error latLngInvalides) ∧
    (returns (toStringJS h (typeOperand (ownProperty fields "type"))) = false ∨
      returns (coerceField h (JSValue.obj fields) "lat") = false ∨
      returns (coerceField h (JSValue.obj fields) "lng") = false →
      normalizeAlert h (JSValue.obj fields) = Except.error JSError.typeError) := by
  simp only [finiteField, coerceField, getProp_obj] at hbad ⊢
  simp only [normalizeAlert, getProp_obj]
  cases hty : toStringJS h (typeOperand (ownProperty fields "type")) with
  | error e =>
    have he := toStringJS_error h _ e hty
    subst he
    simp [returns]
  | ok tyStr =>
    cases hlat : toNumber h (ownProperty fields "lat") with
    | error e =>
      have he := toNumber_error h _ e hlat
      subst he
      simp [returns]
    | ok lat =>
      cases hlng : toNumber h (ownProperty fields "lng") with
      | error e =>
        have he := toNumber_error h _ e hlng
        subst he
        simp [returns]
      | ok lng =>
        simp only [hlat, hlng] at hbad
        have hchk : (!lat.isFinite || !lng.isFinite) = true := by
          rcases hbad with hb | hb <;> simp [hb]
        simp [hchk, returns]

/-- C1 amended, at the inputs `{lat: "abc", lng: 2.0}`, `{lng: 2}` and
`{lat: {toString: 1}, lng: 2}`. -/
theorem normalizeAlert_rejects_bad_coordinates_witness :
    (finiteField asciiHost (JSValue.obj [("lat", JSValue.str "abc"),
        ("lng", JSValue.num (JSNum.fin 2))]) "lat" = false ∨
      finiteField asciiHost (JSValue.obj [("lat", JSValue.str "abc"),
        ("lng", JSValue.num (JSNum.fin 2))]) "lng" = false) ∧
    normalizeAlert asciiHost (JSValue.obj [("lat", JSValue.str "abc"),
        ("lng", JSValue.num (JSNum.fin 2))]) = Except.error latLngInvalides ∧
    returns (normalizeAlert asciiHost
      (JSValue.obj [("lng", JSValue.num (JSNum.fin 2))])) = false ∧
    normalizeAlert asciiHost (JSValue.obj
        [("lat", JSValue.obj [("toString", JSValue.num (JSNum.fin 1))]),
         ("lng", JSValue.num (JSNum.fin 2))]) = Except.error JSError.typeError :=
  ⟨Or.inl (by decide),
   (normalizeAlert_rejects_bad_coordinates asciiHost _ (Or.inl (by decide))).2.1
     (by decide) (by decide) (by decide),
   (normalizeAlert_rejects_bad_coordinates asciiHost
     [("lng", JSValue.num (JSNum.fin 2))] (Or.inl (by decide))).1,
   (normalizeAlert_rejects_bad_coordinates asciiHost
     [("lat", JSValue.obj [("toString", JSValue.num (JSNum.fin 1))]),
      ("lng", JSValue.num (JSNum.fin 2))] (Or.inl (by decide))).2.2
     (Or.inr (Or.inl (by decide)))⟩

/-! ## C2: the other ways to fail -/

/-- C2, refuted: with coordinates that coerce to finite numbers, an object
with an own `toString` property in `type` makes `normalizeAlert` throw a
`TypeError`; so does a `null` input, before the coordinate check. -/
theorem normalizeAlert_throws_despite_coordinates :
    finiteField asciiHost (JSValue.obj
      [("type", JSValue.obj [("toString", JSValue.num (JSNum.fin 1))]),
       ("lat", JSValue.num (JSNum.fin 1)), ("lng", JSValue.num (JSNum.fin 2))]) "lat" = true ∧
    finiteField asciiHost (JSValue.obj
      [("type", JSValue.obj [("toString", JSValue.num (JSNum.fin 1))]),
       ("lat", JSValue.num (JSNum.fin 1)), ("lng", JSValue.num (JSNum.fin 2))]) "lng" = true ∧
    normalizeAlert asciiHost (JSValue.obj
      [("type", JSValue.obj [("toString", JSValue.num (JSNum.fin 1))]),
       ("lat", JSValue.num (JSNum.fin 1)), ("lng", JSValue.num (JSNum.fin 2))])
      = Except.error JSError.typeError ∧
    normalizeAlert asciiHost JSValue.null = Except.error JSError.typeError := by
  refine ⟨by decide, by decide, ?_, ?_⟩
  · rfl
  · rfl

/-- C2, amended. For every input whose `lat` and `lng` coerce to finite
numbers and whose `type`, `intensity` and `ts` go through `String`, `Number`
and `new Date` without a throw, `normalizeAlert` returns an alert. -/
theorem normalizeAlert_returns_when_conversions_do (h : Host) (input : JSValue)
    (hlat : finiteField h input "lat" = true)
    (hlng : finiteField h input "lng" = true)
    (hty : returns (toStringJS h (typeOperand (field input "type"))) = true)
    (hint : returns (toNumber h (field input "intensity")) = true)
    (hts : returns (newDate h (field input "ts")) = true) :
    returns (normalizeAlert h input) = true := by
  cases input with
  | obj fields =>
    simp only [field] at hty hint hts
    simp only [finiteField, coerceField, getProp_obj] at hlat hlng
    obtain ⟨tyStr, hty⟩ := returns_eq_true.mp hty
    obtain ⟨n, hn⟩ := returns_eq_true.mp hint
    obtain ⟨extra, hex⟩ := returns_eq_true.mp (tsFields_returns hts)
    cases hl : toNumber h (ownProperty fields "lat") with
    | error e => simp [hl] at hlat
    | ok lat =>
      cases hg : toNumber h (ownProperty fields "lng") with
      | error e => simp [hg] at hlng
      | ok lng =>
        cases lat <;> simp [hl, JSNum.isFinite] at hlat
        cases lng <;> simp [hg, JSNum.isFinite] at hlng
        rw [normalizeAlert_ok_intro hty hl hg hn hex]
        rfl
  | undefined => simp [finiteField, coerceField, getProp] at hlat
  | null => simp [finiteField, coerceField, getProp] at hlat
  | bool b => simp [finiteField, coerceField, getProp, toNumber, JSNum.isFinite] at hlat
  | num n => simp [finiteField, coerceField, getProp, toNumber, JSNum.isFinite] at hlat
  | str s => simp [finiteField, coerceField, getProp, toNumber, JSNum.isFinite] at hlat
  | arr xs => simp [finiteField, coerceField, getProp, toNumber, JSNum.isFinite] at hlat
  | date t => simp [finiteField, coerceField, getProp, toNumber, JSNum.isFinite] at hlat

/-- C2 amended, at `{type: "fire", lat: "48.85", lng: 2, intensity: true,
ts: 1700000000000}`. -/
theorem normalizeAlert_returns_when_conversions_do_witness :
    returns (normalizeAlert asciiHost (JSValue.obj
      [("type", JSValue.str "fire"), ("lat", JSValue.str "48.85"),
       ("lng", JSValue.num (JSNum.fin 2)), ("intensity", JSValue.bool true),
       ("ts", JSValue.num (JSNum.fin 1700000000000))])) = true :=
  normalizeAlert_returns_when_conversions_do asciiHost _
    (by decide) (by decide) (by decide) (by decide) (by decide)

/-! ## C3: the intensity is clamped -/

/-- C3. Every alert `normalizeAlert` returns has a finite `lat`, a finite
`lng` and a finite `intensity` from 0 to 5; and when the input's intensity
coerces to a finite number `x`, the intensity is 0 for `x < 0`, 5 for
`5 < x`, and `x` otherwise. -/
theorem normalizeAlert_intensity_clamped (h : Host) (arg out : JSValue)
    (hok : normalizeAlert h arg = Except.ok out) :
    (∃ lat lng i : ℚ, field out "lat" = JSValue.num (JSNum.fin lat) ∧
      field out "lng" = JSValue.num (JSNum.fin lng) ∧
      field out "intensity" = JSValue.num (JSNum.fin i) ∧ 0 ≤ i ∧ i ≤ 5) ∧
    (∀ x : ℚ, coerceField h arg "intensity" = Except.ok (JSNum.fin x) →
      field out "intensity" =
        JSValue.num (JSNum.fin (if x < 0 then 0 else if 5 < x then 5 else x))) := by
  obtain ⟨fields, tyStr, lat, lng, n, extra, rfl, -, -, -, hn, -, rfl⟩ :=
    normalizeAlert_ok_inv hok
  obtain ⟨-, hlat, hlng, -, hi, -, -⟩ :=
    field_out h tyStr (JSNum.fin lat) (JSNum.fin lng) (ownProperty fields "msg") n
      (ownProperty fields "source") (ownProperty fields "ville") extra
  obtain ⟨i, hie, h0, h5⟩ := normalizedIntensity_range n
  refine ⟨⟨lat, lng, i, hlat, hlng, by rw [hi, hie], h0, h5⟩, ?_⟩
  intro x hx
  simp only [coerceField, getProp_obj, hn] at hx
  cases hx
  rw [hi, normalizedIntensity_fin]

/-- C3, at `{lat: 1, lng: 2, intensity: 7}`: the intensity of the alert is 5. -/
theorem normalizeAlert_intensity_clamped_witness :
    normalizeAlert asciiHost (JSValue.obj
      [("lat", JSValue.num (JSNum.fin 1)), ("lng", JSValue.num (JSNum.fin 2)),
       ("intensity", JSValue.num (JSNum.fin 7))])
      = Except.ok (JSValue.obj
        [("type", JSValue.str "SOS"), ("lat", JSValue.num (JSNum.fin 1)),
         ("lng", JSValue.num (JSNum.fin 2)), ("msg", JSValue.str "Signal reçu"),
         ("intensity", JSValue.num (JSNum.fin 5)), ("source", JSValue.str "unknown"),
         ("ville", JSValue.str "Inconnue")]) ∧
    field (JSValue.obj
        [("type", JSValue.str "SOS"), ("lat", JSValue.num (JSNum.fin 1)),
         ("lng", JSValue.num (JSNum.fin 2)), ("msg", JSValue.str "Signal reçu"),
         ("intensity", JSValue.num (JSNum.fin 5)), ("source", JSValue.str "unknown"),
         ("ville", JSValue.str "Inconnue")]) "intensity" =
      JSValue.num (JSNum.fin (if (7 : ℚ) < 0 then 0 else if (5 : ℚ) < 7 then 5 else 7)) :=
  have hfirst : normalizeAlert asciiHost (JSValue.obj
      [("lat", JSValue.num (JSNum.fin 1)), ("lng", JSValue.num (JSNum.fin 2)),
       ("intensity", JSValue.num (JSNum.fin 7))])
      = Except.ok (JSValue.obj
        [("type", JSValue.str "SOS"), ("lat", JSValue.num (JSNum.fin 1)),
         ("lng", JSValue.num (JSNum.fin 2)), ("msg", JSValue.str "Signal reçu"),
         ("intensity", JSValue.num (JSNum.fin 5)), ("source", JSValue.str "unknown"),
         ("ville", JSValue.str "Inconnue")]) := by
    have hn : normalizedIntensity (JSNum.fin 7) = JSNum.fin 5 := by
      rw [normalizedIntensity_fin]; norm_num
    rw [@normalizeAlert_ok_intro asciiHost _ "SOS" 1 2 (JSNum.fin 7) []
      (by rfl) (by rfl) (by rfl) (by rfl) (by rfl)]
    simp [outFields, hn, ownProperty, stringOr, JSValue.isString, asciiHost]
  ⟨hfirst, (normalizeAlert_intensity_clamped asciiHost _ _ hfirst).2 7 rfl⟩

/-! ## C4: the default intensity -/

/-- C4, refuted: with `intensity` `null`, or the empty string, the alert
gets the intensity 0, not 1. -/
theorem normalizeAlert_null_intensity_is_zero :
    normalizeAlert asciiHost (JSValue.obj
      [("lat", JSValue.num (JSNum.fin 1)), ("lng", JSValue.num (JSNum.fin 2)),
       ("intensity", JSValue.null)])
      = Except.ok (JSValue.obj
        [("type", JSValue.str "SOS"), ("lat", JSValue.num (JSNum.fin 1)),
         ("lng", JSValue.num (JSNum.fin 2)), ("msg", JSValue.str "Signal reçu"),
         ("intensity", JSValue.num (JSNum.fin 0)), ("source", JSValue.str "unknown"),
         ("ville", JSValue.str "Inconnue")]) ∧
    normalizeAlert asciiHost (JSValue.obj
      [("lat", JSValue.num (JSNum.fin 1)), ("lng", JSValue.num (JSNum.fin 2)),
       ("intensity", JSValue.str "")])
      = Except.ok (JSValue.obj
        [("type", JSValue.str "SOS"), ("lat", JSValue.num (JSNum.fin 1)),
         ("lng", JSValue.num (JSNum.fin 2)), ("msg", JSValue.str "Signal reçu"),
         ("intensity", JSValue.num (JSNum.fin 0)), ("source", JSValue.str "unknown"),
         ("ville", JSValue.str "Inconnue")]) ∧
    JSValue.num (JSNum.fin 0) ≠ JSValue.num (JSNum.fin 1) := by
  refine ⟨?_, ?_, by simp⟩
  · have hn : normalizedIntensity (JSNum.fin 0) = JSNum.fin 0 := by
      rw [normalizedIntensity_fin]; simp
    rw [@normalizeAlert_ok_intro asciiHost _ "SOS" 1 2 (JSNum.fin 0) []
      (by rfl) (by rfl) (by rfl) (by rfl) (by rfl)]
    simp [outFields, hn, ownProperty, stringOr, JSValue.isString, asciiHost]
  · have hn : normalizedIntensity (JSNum.fin 0) = JSNum.fin 0 := by
      rw [normalizedIntensity_fin]; simp
    rw [@normalizeAlert_ok_intro asciiHost _ "SOS" 1 2 (JSNum.fin 0) []
      (by rfl) (by rfl) (by rfl) (by simp [ownProperty, toNumber, stringToNumber_empty])
      (by rfl)]
    simp [outFields, hn, ownProperty, stringOr, JSValue.isString, asciiHost]

/-- C4, amended. On an alert that `normalizeAlert` returns, the intensity is
exactly 1 whenever `Number(input.intensity)` is not a finite number, which
is so when the intensity is absent (`undefined`) or an object; `null`,
`false`, the empty string and the empty array coerce to 0 and give the
intensity 0. -/
theorem normalizeAlert_default_intensity (h : Host) (arg out : JSValue)
    (hok : normalizeAlert h arg = Except.ok out) :
    ((∃ n, toNumber h (field arg "intensity") = Except.ok n ∧ n.isFinite = false) →
      field out "intensity" = JSValue.num (JSNum.fin 1)) ∧
    (field arg "intensity" = JSValue.undefined →
      field out "intensity" = JSValue.num (JSNum.fin 1)) ∧
    (∀ fs, field arg "intensity" = JSValue.obj fs →
      field out "intensity" = JSValue.num (JSNum.fin 1)) ∧
    (field arg "intensity" = JSValue.null ∨ field arg "intensity" = JSValue.bool false ∨
      field arg "intensity" = JSValue.str "" ∨ field arg "intensity" = JSValue.arr [] →
      field out "intensity" = JSValue.num (JSNum.fin 0)) := by
  obtain ⟨fields, tyStr, lat, lng, n, extra, rfl, -, -, -, hn, -, rfl⟩ :=
    normalizeAlert_ok_inv hok
  obtain ⟨-, -, -, -, hi, -, -⟩ :=
    field_out h tyStr (JSNum.fin lat) (JSNum.fin lng) (ownProperty fields "msg") n
      (ownProperty fields "source") (ownProperty fields "ville") extra
  have hone : n.isFinite = false → field (JSValue.obj (outFields h tyStr (JSNum.fin lat)
      (JSNum.fin lng) (ownProperty fields "msg") n (ownProperty fields "source")
      (ownProperty fields "ville") ++ extra)) "intensity" = JSValue.num (JSNum.fin 1) := by
    intro hf
    rw [hi]
    simp [normalizedIntensity, hf]
  have hzero : n = JSNum.fin 0 → field (JSValue.obj (outFields h tyStr (JSNum.fin lat)
      (JSNum.fin lng) (ownProperty fields "msg") n (ownProperty fields "source")
      (ownProperty fields "ville") ++ extra)) "intensity" = JSValue.num (JSNum.fin 0) := by
    intro hf
    rw [hi, hf, normalizedIntensity_fin]
    simp
  simp only [field] at hone hzero ⊢
  refine ⟨?_, ?_, ?_, ?_⟩
  · rintro ⟨m, hm, hf⟩
    rw [hn] at hm
    cases hm
    exact hone hf
  · intro hu
    rw [hu] at hn
    simp only [toNumber] at hn
    cases hn
    exact hone rfl
  · intro fs hu
    rw [hu] at hn
    by_cases hown : hasOwn fs "toString" = true
    · simp [toNumber, toStringJS, hown] at hn
    · simp only [toNumber, toStringJS, hown, stringToNumber_object] at hn
      cases hn
      exact hone rfl
  · rintro (hu | hu | hu | hu) <;> rw [hu] at hn
    · simp only [toNumber] at hn; cases hn; exact hzero rfl
    · simp only [toNumber] at hn; cases hn; exact hzero (by simp)
    · simp only [toNumber, stringToNumber_empty] at hn; cases hn; exact hzero rfl
    · simp only [toNumber, toStringJS, itemStrings, joinWith, stringToNumber_empty] at hn
      cases hn; exact hzero rfl

/-- C4 amended, at `{lat: 1, lng: 2, intensity: "high"}`. -/
theorem normalizeAlert_default_intensity_witness :
    normalizeAlert asciiHost (JSValue.obj
      [("lat", JSValue.num (JSNum.fin 1)), ("lng", JSValue.num (JSNum.fin 2)),
       ("intensity", JSValue.str "high")])
      = Except.ok (JSValue.obj
        [("type", JSValue.str "SOS"), ("lat", JSValue.num (JSNum.fin 1)),
         ("lng", JSValue.num (JSNum.fin 2)), ("msg", JSValue.str "Signal reçu"),
         ("intensity", JSValue.num (JSNum.fin 1)), ("source", JSValue.str "unknown"),
         ("ville", JSValue.str "Inconnue")]) ∧
    field (JSValue.obj
        [("type", JSValue.str "SOS"), ("lat", JSValue.num (JSNum.fin 1)),
         ("lng", JSValue.num (JSNum.fin 2)), ("msg", JSValue.str "Signal reçu"),
         ("intensity", JSValue.num (JSNum.fin 1)), ("source", JSValue.str "unknown"),
         ("ville", JSValue.str "Inconnue")]) "intensity" = JSValue.num (JSNum.fin 1) :=
  have hfirst : normalizeAlert asciiHost (JSValue.obj
      [("lat", JSValue.num (JSNum.fin 1)), ("lng", JSValue.num (JSNum.fin 2)),
       ("intensity", JSValue.str "high")])
      = Except.ok (JSValue.obj
        [("type", JSValue.str "SOS"), ("lat", JSValue.num (JSNum.fin 1)),
         ("lng", JSValue.num (JSNum.fin 2)), ("msg", JSValue.str "Signal reçu"),
         ("intensity", JSValue.num (JSNum.fin 1)), ("source", JSValue.str "unknown"),
         ("ville", JSValue.str "Inconnue")]) := rfl
  ⟨hfirst, (normalizeAlert_default_intensity asciiHost _ _ hfirst).1
    ⟨JSNum.nan, rfl, rfl⟩⟩

/-! ## C5: normalising twice -/

/-- C5, refuted: the input `{type: [], lat: 1, lng: 2}` is normalised to an
alert of type `""`, and normalising that alert gives the type `"SOS"`. -/
theorem normalizeAlert_not_idempotent_on_empty_type :
    normalizeAlert asciiHost (JSValue.obj
      [("type", JSValue.arr []), ("lat", JSValue.num (JSNum.fin 1)),
       ("lng", JSValue.num (JSNum.fin 2))])
      = Except.ok (JSValue.obj
        [("type", JSValue.str ""), ("lat", JSValue.num (JSNum.fin 1)),
         ("lng", JSValue.num (JSNum.fin 2)), ("msg", JSValue.str "Signal reçu"),
         ("intensity", JSValue.num (JSNum.fin 1)), ("source", JSValue.str "unknown"),
         ("ville", JSValue.str "Inconnue")]) ∧
    normalizeAlert asciiHost (JSValue.obj
        [("type", JSValue.str ""), ("lat", JSValue.num (JSNum.fin 1)),
         ("lng", JSValue.num (JSNum.fin 2)), ("msg", JSValue.str "Signal reçu"),
         ("intensity", JSValue.num (JSNum.fin 1)), ("source", JSValue.str "unknown"),
         ("ville", JSValue.str "Inconnue")])
      = Except.ok (JSValue.obj
        [("type", JSValue.str "SOS"), ("lat", JSValue.num (JSNum.fin 1)),
         ("lng", JSValue.num (JSNum.fin 2)), ("msg", JSValue.str "Signal reçu"),
         ("intensity", JSValue.num (JSNum.fin 1)), ("source", JSValue.str "unknown"),
         ("ville", JSValue.str "Inconnue")]) ∧
    JSValue.str "SOS" ≠ JSValue.str "" := by
  have hn : normalizedIntensity (JSNum.fin 1) = JSNum.fin 1 := by
    rw [normalizedIntensity_fin]; norm_num
  refine ⟨rfl, ?_, by simp⟩
  rw [@normalizeAlert_ok_intro asciiHost _ "SOS" 1 2 (JSNum.fin 1) []
    (by rfl) (by rfl) (by rfl) (by rfl) (by rfl)]
  simp [outFields, hn, ownProperty, stringOr, JSValue.isString, asciiHost]

/-- C5, amended. Given that `toUpperCase` maps its own results to
themselves, for every input on which `normalizeAlert` returns an alert whose
type is not the empty string, `normalizeAlert` on that alert returns the
same alert, property by property. -/
theorem normalizeAlert_idempotent (h : Host)
    (hup : ∀ s, h.toUpperCase (h.toUpperCase s) = h.toUpperCase s)
    (arg out : JSValue) (hok : normalizeAlert h arg = Except.ok out)
    (hty : field out "type" ≠ JSValue.str "") :
    normalizeAlert h out = Except.ok out := by
  obtain ⟨fields, tyStr, lat, lng, n, extra, rfl, -, -, -, -, hts, rfl⟩ :=
    normalizeAlert_ok_inv hok
  obtain ⟨htype, hlat, hlng, hmsg, hint, hsrc, hville⟩ :=
    field_out h tyStr (JSNum.fin lat) (JSNum.fin lng) (ownProperty fields "msg") n
      (ownProperty fields "source") (ownProperty fields "ville") extra
  simp only [field] at htype hlat hlng hmsg hint hsrc hville hty
  have hne : h.toUpperCase tyStr ≠ "" := by
    intro he
    apply hty
    rw [htype, he]
  have h1 := toStringJS_typeOperand_str h (h.toUpperCase tyStr) hne
  rw [← htype] at h1
  have h2 : toNumber h (ownProperty (outFields h tyStr (JSNum.fin lat) (JSNum.fin lng)
      (ownProperty fields "msg") n (ownProperty fields "source")
      (ownProperty fields "ville") ++ extra) "lat") = Except.ok (JSNum.fin lat) := by
    rw [hlat]; rfl
  have h3 : toNumber h (ownProperty (outFields h tyStr (JSNum.fin lat) (JSNum.fin lng)
      (ownProperty fields "msg") n (ownProperty fields "source")
      (ownProperty fields "ville") ++ extra) "lng") = Except.ok (JSNum.fin lng) := by
    rw [hlng]; rfl
  have h4 : toNumber h (ownProperty (outFields h tyStr (JSNum.fin lat) (JSNum.fin lng)
      (ownProperty fields "msg") n (ownProperty fields "source")
      (ownProperty fields "ville") ++ extra) "intensity") =
      Except.ok (normalizedIntensity n) := by
    rw [hint]; rfl
  have h5 : tsFields h (ownProperty (outFields h tyStr (JSNum.fin lat) (JSNum.fin lng)
      (ownProperty fields "msg") n (ownProperty fields "source")
      (ownProperty fields "ville") ++ extra) "ts") = Except.ok extra := by
    rw [ownProperty_out_ts]
    exact tsFields_again hts
  rw [normalizeAlert_ok_intro h1 h2 h3 h4 h5, hmsg, hsrc, hville]
  simp only [outFields, hup, normalizedIntensity_idem, stringOr_stringOr]

/-- C5 amended, at `{type: "fire", lat: 1, lng: 2, ts: 1700000000000}`. -/
theorem normalizeAlert_idempotent_witness :
    normalizeAlert asciiHost (JSValue.obj
      [("type", JSValue.str "fire"), ("lat", JSValue.num (JSNum.fin 1)),
       ("lng", JSValue.num (JSNum.fin 2)), ("ts", JSValue.num (JSNum.fin 1700000000000))])
      = Except.ok (JSValue.obj
        [("type", JSValue.str "FIRE"), ("lat", JSValue.num (JSNum.fin 1)),
         ("lng", JSValue.num (JSNum.fin 2)), ("msg", JSValue.str "Signal reçu"),
         ("intensity", JSValue.num (JSNum.fin 1)), ("source", JSValue.str "unknown"),
         ("ville", JSValue.str "Inconnue"), ("ts", JSValue.date (some 1700000000000))]) ∧
    normalizeAlert asciiHost (JSValue.obj
        [("type", JSValue.str "FIRE"), ("lat", JSValue.num (JSNum.fin 1)),
         ("lng", JSValue.num (JSNum.fin 2)), ("msg", JSValue.str "Signal reçu"),
         ("intensity", JSValue.num (JSNum.fin 1)), ("source", JSValue.str "unknown"),
         ("ville", JSValue.str "Inconnue"), ("ts", JSValue.date (some 1700000000000))])
      = Except.ok (JSValue.obj
        [("type", JSValue.str "FIRE"), ("lat", JSValue.num (JSNum.fin 1)),
         ("lng", JSValue.num (JSNum.fin 2)), ("msg", JSValue.str "Signal reçu"),
         ("intensity", JSValue.num (JSNum.fin 1)), ("source", JSValue.str "unknown"),
         ("ville", JSValue.str "Inconnue"), ("ts", JSValue.date (some 1700000000000))]) :=
  have hfirst : normalizeAlert asciiHost (JSValue.obj
      [("type", JSValue.str "fire"), ("lat", JSValue.num (JSNum.fin 1)),
       ("lng", JSValue.num (JSNum.fin 2)), ("ts", JSValue.num (JSNum.fin 1700000000000))])
      = Except.ok (JSValue.obj
        [("type", JSValue.str "FIRE"), ("lat", JSValue.num (JSNum.fin 1)),
         ("lng", JSValue.num (JSNum.fin 2)), ("msg", JSValue.str "Signal reçu"),
         ("intensity", JSValue.num (JSNum.fin 1)), ("source", JSValue.str "unknown"),
         ("ville", JSValue.str "Inconnue"), ("ts", JSValue.date (some 1700000000000))]) := by
    rw [@normalizeAlert_ok_intro asciiHost _ "fire" 1 2 JSNum.nan
      [("ts", JSValue.date (some 1700000000000))]
      (by rfl) (by rfl) (by rfl) (by rfl)
      (by simp [tsFields, ownProperty, JSValue.toBoolean, newDate, toNumber, timeClip, maxTime]
          norm_num [abs_of_nonneg])]
    simp [outFields, ownProperty, stringOr, JSValue.isString, normalizedIntensity,
      JSNum.isFinite, asciiHost]
  ⟨hfirst, normalizeAlert_idempotent asciiHost asciiHost_toUpperCase_idem _ _ hfirst
    (by simp [field, ownProperty])⟩

/-! ## C6: the defaults -/

/-- C6, refuted: for `{lat: 48.85, lng: 2.35}` the city of the alert is
`"Inconnue"`, not `"Unknown"`. -/
theorem normalizeAlert_default_city_is_inconnue :
    normalizeAlert asciiHost (JSValue.obj
      [("lat", JSValue.num (JSNum.fin 48.85)), ("lng", JSValue.num (JSNum.fin 2.35))])
      = Except.ok (JSValue.obj
        [("type", JSValue.str "SOS"), ("lat", JSValue.num (JSNum.fin 48.85)),
         ("lng", JSValue.num (JSNum.fin 2.35)), ("msg", JSValue.str "Signal reçu"),
         ("intensity", JSValue.num (JSNum.fin 1)), ("source", JSValue.str "unknown"),
         ("ville", JSValue.str "Inconnue")]) ∧
    JSValue.str "Inconnue" ≠ JSValue.str "Unknown" := by
  refine ⟨rfl, ?_⟩
  simp only [ne_eq, JSValue.str.injEq]
  decide

/-- C6, amended. Given that `toUpperCase` leaves `"SOS"` as it is, for the
input `{lat: 48.85, lng: 2.35}` `normalizeAlert` returns the type `"SOS"`, the
message `"Signal reçu"`, the latitude 48.85, the longitude 2.35, the
intensity 1, the source `"unknown"`, the city `"Inconnue"` and no timestamp;
and whenever the city of an input is absent or not a string, the city of
the alert is `"Inconnue"`. -/
theorem normalizeAlert_defaults (h : Host) (hup : h.toUpperCase "SOS" = "SOS") :
    normalizeAlert h (JSValue.obj
      [("lat", JSValue.num (JSNum.fin 48.85)), ("lng", JSValue.num (JSNum.fin 2.35))])
      = Except.ok (JSValue.obj
        [("type", JSValue.str "SOS"), ("lat", JSValue.num (JSNum.fin 48.85)),
         ("lng", JSValue.num (JSNum.fin 2.35)), ("msg", JSValue.str "Signal reçu"),
         ("intensity", JSValue.num (JSNum.fin 1)), ("source", JSValue.str "unknown"),
         ("ville", JSValue.str "Inconnue")]) ∧
    (∀ arg out, normalizeAlert h arg = Except.ok out →
      (field arg "ville").isString = false →
      field out "ville" = JSValue.str "Inconnue") := by
  constructor
  · rw [@normalizeAlert_ok_intro h _ "SOS" 48.85 2.35 JSNum.nan []
      (by rfl) (by rfl) (by rfl) (by rfl) (by rfl)]
    simp [outFields, hup, ownProperty, stringOr, JSValue.isString, normalizedIntensity,
      JSNum.isFinite]
  · intro arg out hok hv
    obtain ⟨fields, tyStr, lat, lng, n, extra, rfl, -, -, -, -, -, rfl⟩ :=
      normalizeAlert_ok_inv hok
    obtain ⟨-, -, -, -, -, -, hville⟩ :=
      field_out h tyStr (JSNum.fin lat) (JSNum.fin lng) (ownProperty fields "msg") n
        (ownProperty fields "source") (ownProperty fields "ville") extra
    simp only [field] at hv hville ⊢
    rw [hville, stringOr, hv]
    rfl

/-- C6 amended, with the host for examples, at the input `{lat: 1, lng: 2,
ville: 7}`. -/
theorem normalizeAlert_defaults_witness :
    asciiHost.toUpperCase "SOS" = "SOS" ∧
    field (JSValue.obj
        [("type", JSValue.str "SOS"), ("lat", JSValue.num (JSNum.fin 1)),
         ("lng", JSValue.num (JSNum.fin 2)), ("msg", JSValue.str "Signal reçu"),
         ("intensity", JSValue.num (JSNum.fin 1)), ("source", JSValue.str "unknown"),
         ("ville", JSValue.str "Inconnue")]) "ville" = JSValue.str "Inconnue" :=
  have hfirst : normalizeAlert asciiHost (JSValue.obj
      [("lat", JSValue.num (JSNum.fin 1)), ("lng", JSValue.num (JSNum.fin 2)),
       ("ville", JSValue.num (JSNum.fin 7))])
      = Except.ok (JSValue.obj
        [("type", JSValue.str "SOS"), ("lat", JSValue.num (JSNum.fin 1)),
         ("lng", JSValue.num (JSNum.fin 2)), ("msg", JSValue.str "Signal reçu"),
         ("intensity", JSValue.num (JSNum.fin 1)), ("source", JSValue.str "unknown"),
         ("ville", JSValue.str "Inconnue")]) := rfl
  ⟨by decide, (normalizeAlert_defaults asciiHost (by decide)).2 _ _ hfirst rfl⟩

/-! ## C7: the intensity of a fire -/

/-- C7, the code at a brightness under 275: the row
`10.0,20.0,100,1,1,2024-01-01` gives an alert of type `"FIRE"` with the
intensity -4, below 0; the row `10.0,20.0,350,1,1,2024-01-01` gives the
intensity 1. -/
theorem fireAlert_intensity_below_zero :
    field (fireAlert "10.0,20.0,100,1,1,2024-01-01") "type" = JSValue.str "FIRE" ∧
    field (fireAlert "10.0,20.0,100,1,1,2024-01-01") "intensity" =
      JSValue.num (JSNum.fin (-4)) ∧
    field (fireAlert "10.0,20.0,350,1,1,2024-01-01") "type" = JSValue.str "FIRE" ∧
    field (fireAlert "10.0,20.0,350,1,1,2024-01-01") "intensity" =
      JSValue.num (JSNum.fin 1) := by
  have c100 : column (split "10.0,20.0,100,1,1,2024-01-01" ',') 2 = JSValue.str "100" := by
    rfl
  have c350 : column (split "10.0,20.0,350,1,1,2024-01-01" ',') 2 = JSValue.str "350" := by
    rfl
  have f100 : (⌊((100 : ℚ) - 300) / 50 + 1 / 2⌋ : ℤ) = -4 := by
    rw [Int.floor_eq_iff]; norm_num
  have f350 : (⌊((350 : ℚ) - 300) / 50 + 1 / 2⌋ : ℤ) = 1 := by
    rw [Int.floor_eq_iff]; norm_num
  refine ⟨rfl, ?_, rfl, ?_⟩
  · show JSValue.num (fireIntensity (column (split "10.0,20.0,100,1,1,2024-01-01" ',') 2)) = _
    rw [c100, fireIntensity_fin "100" 100 stringToNumber_100, f100]
    norm_num
  · show JSValue.num (fireIntensity (column (split "10.0,20.0,350,1,1,2024-01-01" ',') 2)) = _
    rw [c350, fireIntensity_fin "350" 350 stringToNumber_350, f350]
    norm_num

/-! ## C8: how many alerts a feed gives -/

/-- C8, the code at a feed of a header and ten data lines: `fetchRecentFires`
returns the alerts of the first nine data lines, nine alerts and not ten;
and on no feed does it return more than nine. -/
theorem fetchRecentFires_nine_of_ten :
    fetchRecentFires (FetchOutcome.body (feedText
      "latitude,longitude,bright_ti4,scan,track,acq_date"
      ["10.0,20.0,350,1,1,2024-01-01", "11.0,20.0,350,1,1,2024-01-01",
       "12.0,20.0,350,1,1,2024-01-01", "13.0,20.0,350,1,1,2024-01-01",
       "14.0,20.0,350,1,1,2024-01-01", "15.0,20.0,350,1,1,2024-01-01",
       "16.0,20.0,350,1,1,2024-01-01", "17.0,20.0,350,1,1,2024-01-01",
       "18.0,20.0,350,1,1,2024-01-01", "19.0,20.0,350,1,1,2024-01-01"]))
      = Except.ok (List.map fireAlert
      ["10.0,20.0,350,1,1,2024-01-01", "11.0,20.0,350,1,1,2024-01-01",
       "12.0,20.0,350,1,1,2024-01-01", "13.0,20.0,350,1,1,2024-01-01",
       "14.0,20.0,350,1,1,2024-01-01", "15.0,20.0,350,1,1,2024-01-01",
       "16.0,20.0,350,1,1,2024-01-01", "17.0,20.0,350,1,1,2024-01-01",
       "18.0,20.0,350,1,1,2024-01-01"]) ∧
    (∀ csv alerts, fetchRecentFires (FetchOutcome.body csv) = Except.ok alerts →
      alerts.length ≤ 9) := by
  constructor
  · show Except.ok (fireAlerts _) = _
    rw [fireAlerts_feedText _ _ (by decide) (by decide)]
    rfl
  · intro csv alerts hok
    simp only [fetchRecentFires, Except.ok.injEq] at hok
    rw [← hok]
    exact fireAlerts_length_le csv

/-! ## C9: a failed fetch -/

/-- C9, refuted: when the request fails, `fetchRecentFires` does not return
the empty list, it fails with the error of the request. -/
theorem fetchRecentFires_propagates_failure :
    fetchRecentFires (FetchOutcome.requestFails (JSError.error "ECONNREFUSED"))
      = Except.error (JSError.error "ECONNREFUSED") ∧
    fetchRecentFires (FetchOutcome.requestFails (JSError.error "ECONNREFUSED"))
      ≠ Except.ok [] := by
  constructor
  · rfl
  · simp [fetchRecentFires]

/-- C9, amended. `fetchRecentFires` catches nothing: when the HTTP request
or the reading of its body raises, the call fails with that error and
returns no list; when the body arrives, it returns the alerts of the
body. -/
theorem fetchRecentFires_outcomes (e : JSError) (csv : String) :
    fetchRecentFires (FetchOutcome.requestFails e) = Except.error e ∧
    fetchRecentFires (FetchOutcome.bodyFails e) = Except.error e ∧
    fetchRecentFires (FetchOutcome.body csv) = Except.ok (fireAlerts csv) :=
  ⟨rfl, rfl, rfl⟩

/-! ## C10: broadcast after store -/

/-- C10. In every run of the two ingestion paths from the start of the
server, each broadcast in the trace is an `alert` event that comes right
after the store step returned its payload, a record the store holds; the
payloads broadcast are, in order, the records stored. A message or request
whose normalisation fails broadcasts nothing, stores nothing and starts no
store step; a store step that fails broadcasts nothing and stores nothing. -/
theorem broadcast_only_after_store (h : Host) (actions : List Action) :
    (∀ pre n p post,
      (run h Server.start actions).trace = pre ++ Event.emitted n p :: post →
      n = "alert" ∧ (∃ before, pre = before ++ [Event.stored p]) ∧
        p ∈ (run h Server.start actions).db) ∧
    broadcasts (run h Server.start actions).trace = (run h Server.start actions).db ∧
    (∀ s path raw, returns (normalizeAlert h raw) = false →
      broadcasts (beginIngest h path raw s).trace = broadcasts s.trace ∧
      (beginIngest h path raw s).db = s.db ∧
      (beginIngest h path raw s).pending = s.pending) ∧
    (∀ s i e,
      broadcasts (step h s (Action.createSettles i (Except.error e))).trace =
        broadcasts s.trace ∧
      (step h s (Action.createSettles i (Except.error e))).db = s.db) := by
  obtain ⟨hfollow, hsame⟩ := run_invariant h actions Server.start start_invariant
  refine ⟨hfollow, hsame, ?_, ?_⟩
  · intro s path raw hfail
    obtain ⟨hb, hd⟩ := beginIngest_quiet h path raw s
    refine ⟨hb, hd, ?_⟩
    obtain ⟨e, he⟩ := returns_eq_false.mp hfail
    unfold beginIngest
    rw [he]
    cases path <;> rfl
  · intro s i e
    simp only [step]
    cases hp : s.pending.get? i with
    | none => exact ⟨rfl, rfl⟩
    | some pd =>
      obtain ⟨path, data⟩ := pd
      cases path <;> simp [finishIngest, broadcasts_append, broadcasts]

/-- C10, at the run of a `POST /alert` with `{lat: 1, lng: 2}` whose store
step then returns a record. -/
theorem broadcast_only_after_store_witness :
    (run asciiHost Server.start
      [Action.postAlert (JSValue.obj
        [("lat", JSValue.num (JSNum.fin 1)), ("lng", JSValue.num (JSNum.fin 2))]),
       Action.createSettles 0 (Except.ok (JSValue.obj
        [("_id", JSValue.str "a1"), ("lat", JSValue.num (JSNum.fin 1)),
         ("lng", JSValue.num (JSNum.fin 2))]))]).trace =
      [Event.stored (JSValue.obj
        [("_id", JSValue.str "a1"), ("lat", JSValue.num (JSNum.fin 1)),
         ("lng", JSValue.num (JSNum.fin 2))])] ++
      Event.emitted "alert" (JSValue.obj
        [("_id", JSValue.str "a1"), ("lat", JSValue.num (JSNum.fin 1)),
         ("lng", JSValue.num (JSNum.fin 2))]) ::
      [Event.created (JSValue.obj
        [("_id", JSValue.str "a1"), ("lat", JSValue.num (JSNum.fin 1)),
         ("lng", JSValue.num (JSNum.fin 2))])] ∧
    (JSValue.obj
        [("_id", JSValue.str "a1"), ("lat", JSValue.num (JSNum.fin 1)),
         ("lng", JSValue.num (JSNum.fin 2))]) ∈
      (run asciiHost Server.start
        [Action.postAlert (JSValue.obj
          [("lat", JSValue.num (JSNum.fin 1)), ("lng", JSValue.num (JSNum.fin 2))]),
         Action.createSettles 0 (Except.ok (JSValue.obj
          [("_id", JSValue.str "a1"), ("lat", JSValue.num (JSNum.fin 1)),
           ("lng", JSValue.num (JSNum.fin 2))]))]).db :=
  have htrace : (run asciiHost Server.start
      [Action.postAlert (JSValue.obj
        [("lat", JSValue.num (JSNum.fin 1)), ("lng", JSValue.num (JSNum.fin 2))]),
       Action.createSettles 0 (Except.ok (JSValue.obj
        [("_id", JSValue.str "a1"), ("lat", JSValue.num (JSNum.fin 1)),
         ("lng", JSValue.num (JSNum.fin 2))]))]).trace =
      [Event.stored (JSValue.obj
        [("_id", JSValue.str "a1"), ("lat", JSValue.num (JSNum.fin 1)),
         ("lng", JSValue.num (JSNum.fin 2))])] ++
      Event.emitted "alert" (JSValue.obj
        [("_id", JSValue.str "a1"), ("lat", JSValue.num (JSNum.fin 1)),
         ("lng", JSValue.num (JSNum.fin 2))]) ::
      [Event.created (JSValue.obj
        [("_id", JSValue.str "a1"), ("lat", JSValue.num (JSNum.fin 1)),
         ("lng", JSValue.num (JSNum.fin 2))])] := rfl
  ⟨htrace, ((broadcast_only_after_store asciiHost _).1 _ _ _ _ htrace).2.2⟩

/-! ## C11: the enumerations of the schema -/

/-- C11, refuted: `{type: "foo", source: "NASA_FIRMS", lat: 1, lng: 2}` is
normalised to an alert of type `"FOO"` and source `"NASA_FIRMS"`, and
`Alert.create` fails on it with a `ValidationError` on `type` and `source`. -/
theorem alertCreate_rejects_unknown_type :
    normalizeAlert asciiHost (JSValue.obj
      [("type", JSValue.str "foo"), ("source", JSValue.str "NASA_FIRMS"),
       ("lat", JSValue.num (JSNum.fin 1)), ("lng", JSValue.num (JSNum.fin 2))])
      = Except.ok (JSValue.obj
        [("type", JSValue.str "FOO"), ("lat", JSValue.num (JSNum.fin 1)),
         ("lng", JSValue.num (JSNum.fin 2)), ("msg", JSValue.str "Signal reçu"),
         ("intensity", JSValue.num (JSNum.fin 1)), ("source", JSValue.str "NASA_FIRMS"),
         ("ville", JSValue.str "Inconnue")]) ∧
    alertCreate (JSValue.str "id1") 1700000000000 (JSValue.obj
        [("type", JSValue.str "FOO"), ("lat", JSValue.num (JSNum.fin 1)),
         ("lng", JSValue.num (JSNum.fin 2)), ("msg", JSValue.str "Signal reçu"),
         ("intensity", JSValue.num (JSNum.fin 1)), ("source", JSValue.str "NASA_FIRMS"),
         ("ville", JSValue.str "Inconnue")])
      = some (Except.error (JSError.validationError ["type", "source"])) := by
  constructor
  · rfl
  · obtain ⟨tsV, hc⟩ := alertCreate_out (JSValue.str "id1") 1700000000000 "FOO"
      "Signal reçu" "NASA_FIRMS" "Inconnue" 1 2 1 (by norm_num) (by norm_num) [] (Or.inl rfl)
    rw [List.append_nil] at hc
    rw [hc, if_neg (by decide), if_neg (by decide)]

/-- C11, amended. On an alert that `normalizeAlert` returns, the type is the
input's string upper-cased when that string is not empty (the empty string
gives `"SOS"` upper-cased) and the source is the input's string unchanged,
whether or not they are in the enumerations of `AlertSchema`; the store step
`Alert.create` saves the alert when both are in the enumerations, and fails
with a `ValidationError` on `type` or `source` when one is not. -/
theorem alertCreate_enforces_enums (h : Host) (newId : JSValue) (now : ℤ)
    (arg out : JSValue) (hok : normalizeAlert h arg = Except.ok out) :
    ∃ ty src : String,
      field out "type" = JSValue.str ty ∧ field out "source" = JSValue.str src ∧
      (∀ t, field arg "type" = JSValue.str t → t ≠ "" → ty = h.toUpperCase t) ∧
      (field arg "type" = JSValue.str "" → ty = h.toUpperCase "SOS") ∧
      (∀ t, field arg "source" = JSValue.str t → src = t) ∧
      (ty ∈ typeEnum → src ∈ sourceEnum →
        ∃ doc, alertCreate newId now out = some (Except.ok doc) ∧
          field doc "type" = JSValue.str ty ∧ field doc "source" = JSValue.str src ∧
          field doc "_id" = newId) ∧
      (ty ∉ typeEnum ∨ src ∉ sourceEnum →
        ∃ paths, paths ≠ [] ∧ (∀ p ∈ paths, p = "type" ∨ p = "source") ∧
          alertCreate newId now out =
            some (Except.error (JSError.validationError paths))) := by
  obtain ⟨fields, tyStr, lat, lng, n, extra, rfl, hty, -, -, -, hts, rfl⟩ :=
    normalizeAlert_ok_inv hok
  obtain ⟨htype, -, -, -, -, hsrc, -⟩ :=
    field_out h tyStr (JSNum.fin lat) (JSNum.fin lng) (ownProperty fields "msg") n
      (ownProperty fields "source") (ownProperty fields "ville") extra
  obtain ⟨msg, hmsg, -⟩ := stringOr_eq_str (ownProperty fields "msg") "Signal reçu"
  obtain ⟨src, hsrcv, hsrckeep⟩ := stringOr_eq_str (ownProperty fields "source") "unknown"
  obtain ⟨ville, hville, -⟩ := stringOr_eq_str (ownProperty fields "ville") "Inconnue"
  obtain ⟨i, hi, h0, h5⟩ := normalizedIntensity_range n
  obtain ⟨tsV, hc⟩ := alertCreate_out newId now (h.toUpperCase tyStr) msg src ville
    lat lng i h0 h5 extra (tsFields_inv hts)
  have hout : outFields h tyStr (JSNum.fin lat) (JSNum.fin lng) (ownProperty fields "msg") n
      (ownProperty fields "source") (ownProperty fields "ville") =
      [("type", JSValue.str (h.toUpperCase tyStr)), ("lat", JSValue.num (JSNum.fin lat)),
       ("lng", JSValue.num (JSNum.fin lng)), ("msg", JSValue.str msg),
       ("intensity", JSValue.num (JSNum.fin i)), ("source", JSValue.str src),
       ("ville", JSValue.str ville)] := by
    simp only [outFields, hmsg, hsrcv, hville, hi]
  refine ⟨h.toUpperCase tyStr, src, htype, by rw [hsrc, hsrcv], ?_, ?_, ?_, ?_, ?_⟩
  · intro t ht hne
    simp only [field] at ht
    rw [ht, toStringJS_typeOperand_str h t hne] at hty
    cases hty
    rfl
  · intro ht
    simp only [field] at ht
    rw [ht] at hty
    simp only [typeOperand, JSValue.toBoolean, ne_eq, not_true_eq_false, decide_False,
      Bool.false_eq_true, if_false, toStringJS, Except.ok.injEq] at hty
    rw [← hty]
  · intro t ht
    exact hsrckeep t ht
  · intro hin1 hin2
    rw [hout, hc, if_pos hin1, if_pos hin2]
    exact ⟨_, rfl, rfl, rfl, rfl⟩
  · intro hnot
    rw [hout, hc]
    by_cases hin1 : h.toUpperCase tyStr ∈ typeEnum
    · have hin2 : src ∉ sourceEnum := by
        rcases hnot with hx | hx
        · exact absurd hin1 hx
        · exact hx
      rw [if_pos hin1, if_neg hin2]
      exact ⟨["source"], by simp, by simp, rfl⟩
    · rw [if_neg hin1]
      by_cases hin2 : src ∈ sourceEnum
      · rw [if_pos hin2]
        exact ⟨["type"], by simp, by simp, rfl⟩
      · rw [if_neg hin2]
        exact ⟨["type", "source"], by simp, by simp, rfl⟩

/-- C11 amended, at `{type: "fire", source: "satellite", lat: 1, lng: 2}`,
whose alert of type `"FIRE"` is saved, and at `{type: "", source: "drone",
lat: 1, lng: 2}`, whose alert of type `"SOS"` fails on `source`. -/
theorem alertCreate_enforces_enums_witness :
    (normalizeAlert asciiHost (JSValue.obj
      [("type", JSValue.str "fire"), ("source", JSValue.str "satellite"),
       ("lat", JSValue.num (JSNum.fin 1)), ("lng", JSValue.num (JSNum.fin 2))])
      = Except.ok (JSValue.obj
        [("type", JSValue.str "FIRE"), ("lat", JSValue.num (JSNum.fin 1)),
         ("lng", JSValue.num (JSNum.fin 2)), ("msg", JSValue.str "Signal reçu"),
         ("intensity", JSValue.num (JSNum.fin 1)), ("source", JSValue.str "satellite"),
         ("ville", JSValue.str "Inconnue")]) ∧
      ∃ doc, alertCreate (JSValue.str "id1") 1700000000000 (JSValue.obj
        [("type", JSValue.str "FIRE"), ("lat", JSValue.num (JSNum.fin 1)),
         ("lng", JSValue.num (JSNum.fin 2)), ("msg", JSValue.str "Signal reçu"),
         ("intensity", JSValue.num (JSNum.fin 1)), ("source", JSValue.str "satellite"),
         ("ville", JSValue.str "Inconnue")]) = some (Except.ok doc) ∧
        field doc "type" = JSValue.str "FIRE" ∧
        field doc "source" = JSValue.str "satellite" ∧
        field doc "_id" = JSValue.str "id1") ∧
    (normalizeAlert asciiHost (JSValue.obj
      [("type", JSValue.str ""), ("source", JSValue.str "drone"),
       ("lat", JSValue.num (JSNum.fin 1)), ("lng", JSValue.num (JSNum.fin 2))])
      = Except.ok (JSValue.obj
        [("type", JSValue.str "SOS"), ("lat", JSValue.num (JSNum.fin 1)),
         ("lng", JSValue.num (JSNum.fin 2)), ("msg", JSValue.str "Signal reçu"),
         ("intensity", JSValue.num (JSNum.fin 1)), ("source", JSValue.str "drone"),
         ("ville", JSValue.str "Inconnue")]) ∧
      ∃ paths, paths ≠ [] ∧ alertCreate (JSValue.str "id2") 1700000000000 (JSValue.obj
        [("type", JSValue.str "SOS"), ("lat", JSValue.num (JSNum.fin 1)),
         ("lng", JSValue.num (JSNum.fin 2)), ("msg", JSValue.str "Signal reçu"),
         ("intensity", JSValue.num (JSNum.fin 1)), ("source", JSValue.str "drone"),
         ("ville", JSValue.str "Inconnue")]) =
          some (Except.error (JSError.validationError paths))) := by
  have hfire : normalizeAlert asciiHost (JSValue.obj
      [("type", JSValue.str "fire"), ("source", JSValue.str "satellite"),
       ("lat", JSValue.num (JSNum.fin 1)), ("lng", JSValue.num (JSNum.fin 2))])
      = Except.ok (JSValue.obj
        [("type", JSValue.str "FIRE"), ("lat", JSValue.num (JSNum.fin 1)),
         ("lng", JSValue.num (JSNum.fin 2)), ("msg", JSValue.str "Signal reçu"),
         ("intensity", JSValue.num (JSNum.fin 1)), ("source", JSValue.str "satellite"),
         ("ville", JSValue.str "Inconnue")]) := rfl
  have hdrone : normalizeAlert asciiHost (JSValue.obj
      [("type", JSValue.str ""), ("source", JSValue.str "drone"),
       ("lat", JSValue.num (JSNum.fin 1)), ("lng", JSValue.num (JSNum.fin 2))])
      = Except.ok (JSValue.obj
        [("type", JSValue.str "SOS"), ("lat", JSValue.num (JSNum.fin 1)),
         ("lng", JSValue.num (JSNum.fin 2)), ("msg", JSValue.str "Signal reçu"),
         ("intensity", JSValue.num (JSNum.fin 1)), ("source", JSValue.str "drone"),
         ("ville", JSValue.str "Inconnue")]) := rfl
  refine ⟨⟨hfire, ?_⟩, ⟨hdrone, ?_⟩⟩
  · obtain ⟨ty, src, hty, hsrc, -, -, -, hsave, -⟩ :=
      alertCreate_enforces_enums asciiHost (JSValue.str "id1") 1700000000000 _ _ hfire
    have ety : ty = "FIRE" := by
      have e : JSValue.str "FIRE" = JSValue.str ty := hty
      cases e; rfl
    have esrc : src = "satellite" := by
      have e : JSValue.str "satellite" = JSValue.str src := hsrc
      cases e; rfl
    subst ety esrc
    exact hsave (by decide) (by decide)
  · obtain ⟨ty, src, hty, hsrc, -, -, -, -, hrej⟩ :=
      alertCreate_enforces_enums asciiHost (JSValue.str "id2") 1700000000000 _ _ hdrone
    have esrc : src = "drone" := by
      have e : JSValue.str "drone" = JSValue.str src := hsrc
      cases e; rfl
    subst esrc
    obtain ⟨paths, hne, -, hc⟩ := hrej (Or.inr (by decide))
    exact ⟨paths, hne, hc⟩

/-! ## C12: the read path -/

/-- C12. Whatever records the store holds, and however the database orders
records of equal time, `GET /alerts` answers with the `min(n, 200)` most
recent of the `n` stored records, each as often as the store holds it: the
answer is ordered by time, newest first, and together with the records left
out it is the store, no record left out being more recent than one
returned. -/
theorem getAlerts_recent (sort : List JSValue → List JSValue)
    (hsort : SortsNewestFirst sort) (db : List JSValue) :
    getAlerts sort (StoreRead.holds db) = (200, JSValue.arr (recentAlerts sort db)) ∧
    (recentAlerts sort db).length = min db.length 200 ∧
    (recentAlerts sort db).Pairwise (fun a b => timeOf b ≤ timeOf a) ∧
    (∃ omitted, (recentAlerts sort db ++ omitted).Perm db ∧
      ∀ o ∈ omitted, ∀ x ∈ recentAlerts sort db, timeOf o ≤ timeOf x) ∧
    (∀ x ∈ recentAlerts sort db, x ∈ db) ∧
    (∀ o ∈ db, o ∉ recentAlerts sort db → ∀ x ∈ recentAlerts sort db, timeOf o ≤ timeOf x) := by
  obtain ⟨hperm, hsorted⟩ := hsort db
  have hsplit : (sort db).take 200 ++ (sort db).drop 200 = sort db :=
    List.take_append_drop 200 (sort db)
  have hcross : ∀ x ∈ (sort db).take 200, ∀ o ∈ (sort db).drop 200, timeOf o ≤ timeOf x := by
    rw [← hsplit] at hsorted
    exact (List.pairwise_append.mp hsorted).2.2
  refine ⟨rfl, ?_, ?_, ?_, ?_, ?_⟩
  · simp only [recentAlerts, List.length_take, hperm.length_eq]
    exact min_comm _ _
  · exact hsorted.sublist (List.take_sublist _ _)
  · refine ⟨(sort db).drop 200, ?_, ?_⟩
    · show ((sort db).take 200 ++ (sort db).drop 200).Perm db
      rw [hsplit]
      exact hperm
    · intro o ho x hx
      exact hcross x hx o ho
  · intro x hx
    exact hperm.subset (List.mem_of_mem_take hx)
  · intro o ho hout x hx
    have hmem : o ∈ (sort db).take 200 ++ (sort db).drop 200 := by
      rw [hsplit]
      exact hperm.symm.subset ho
    rcases List.mem_append.mp hmem with hin | hin
    · exact absurd hin hout
    · exact hcross x hx o hin

/-- C12, with the sort for examples: a store of three records, of times 1, 3
and none, is answered newest first; a store of 250 records is answered with
200. -/
theorem getAlerts_recent_witness :
    SortsNewestFirst stableNewestFirst ∧
    recentAlerts stableNewestFirst
      [JSValue.obj [("_id", JSValue.str "a"), ("ts", JSValue.date (some 1))],
       JSValue.obj [("_id", JSValue.str "b"), ("ts", JSValue.date (some 3))],
       JSValue.obj [("_id", JSValue.str "c")]] =
      [JSValue.obj [("_id", JSValue.str "b"), ("ts", JSValue.date (some 3))],
       JSValue.obj [("_id", JSValue.str "a"), ("ts", JSValue.date (some 1))],
       JSValue.obj [("_id", JSValue.str "c")]] ∧
    (recentAlerts stableNewestFirst
      (List.replicate 250 (JSValue.obj [("ts", JSValue.date (some 1))]))).length = 200 :=
  ⟨stableNewestFirst_sorts, rfl,
   (getAlerts_recent stableNewestFirst stableNewestFirst_sorts
     (List.replicate 250 (JSValue.obj [("ts", JSValue.date (some 1))]))).2.1.trans
     (by rw [List.length_replicate]; rfl)⟩

/-! ## C13: a bad message is dropped -/

/-- C13. The MQTT message handler is a total step, whatever the bytes of
the payload. When the payload does not parse as JSON, or parses to a value
that `normalizeAlert` rejects, the step only logs the error: the store and
the pending store steps are unchanged, nothing is broadcast, and the run
goes on with the next turns. -/
theorem onMessage_drops_bad_payload (h : Host)
    (parse : List UInt8 → Except JSError JSValue) (s : Server) (payload : List UInt8)
    (hbad : returns (parse payload) = false ∨
      ∃ raw, parse payload = Except.ok raw ∧ returns (normalizeAlert h raw) = false) :
    (∃ e, onMessage h parse s payload =
      { pending := s.pending, db := s.db, trace := s.trace ++ [Event.badPayloadLog e] }) ∧
    (onMessage h parse s payload).db = s.db ∧
    (onMessage h parse s payload).pending = s.pending ∧
    broadcasts (onMessage h parse s payload).trace = broadcasts s.trace ∧
    (∀ rest, run h s (Action.message (parse payload) :: rest) =
      run h (onMessage h parse s payload) rest) := by
  have hmain : ∃ e, onMessage h parse s payload =
      { pending := s.pending, db := s.db, trace := s.trace ++ [Event.badPayloadLog e] } := by
    rcases hbad with hp | ⟨raw, hp, hn⟩
    · obtain ⟨e, he⟩ := returns_eq_false.mp hp
      exact ⟨e, by simp [onMessage, he, step]⟩
    · obtain ⟨e, he⟩ := returns_eq_false.mp hn
      exact ⟨e, by simp [onMessage, hp, step, beginIngest, he]⟩
  obtain ⟨e, he⟩ := hmain
  refine ⟨⟨e, he⟩, ?_, ?_, ?_, ?_⟩
  · rw [he]
  · rw [he]
  · rw [he]
    simp [broadcasts_append, broadcasts]
  · intro rest
    rfl

/-- C13, at a payload that does not parse and at one that parses to
`{lat: "abc"}`. -/
theorem onMessage_drops_bad_payload_witness :
    (onMessage asciiHost (fun _ => Except.error (JSError.error "Unexpected token"))
      Server.start [110, 111]).db = Server.start.db ∧
    (onMessage asciiHost
      (fun _ => Except.ok (JSValue.obj [("lat", JSValue.str "abc")]))
      Server.start [123, 125]).db = Server.start.db :=
  ⟨(onMessage_drops_bad_payload asciiHost
      (fun _ => Except.error (JSError.error "Unexpected token"))
      Server.start [110, 111] (Or.inl rfl)).2.1,
   (onMessage_drops_bad_payload asciiHost
      (fun _ => Except.ok (JSValue.obj [("lat", JSValue.str "abc")]))
      Server.start [123, 125] (Or.inr ⟨_, rfl, by decide⟩)).2.1⟩

/-! ## C14: the timestamp -/

/-- C14, refuted: for `{lat: 1, lng: 2, ts: 0}` the alert has no `ts`,
although `new Date(0)` is the valid time 0. -/
theorem normalizeAlert_drops_epoch_zero :
    normalizeAlert asciiHost (JSValue.obj
      [("lat", JSValue.num (JSNum.fin 1)), ("lng", JSValue.num (JSNum.fin 2)),
       ("ts", JSValue.num (JSNum.fin 0))])
      = Except.ok (JSValue.obj
        [("type", JSValue.str "SOS"), ("lat", JSValue.num (JSNum.fin 1)),
         ("lng", JSValue.num (JSNum.fin 2)), ("msg", JSValue.str "Signal reçu"),
         ("intensity", JSValue.num (JSNum.fin 1)), ("source", JSValue.str "unknown"),
         ("ville", JSValue.str "Inconnue")]) ∧
    newDate asciiHost (JSValue.num (JSNum.fin 0)) = Except.ok (some 0) := by
  constructor
  · rw [@normalizeAlert_ok_intro asciiHost _ "SOS" 1 2 JSNum.nan []
      (by rfl) (by rfl) (by rfl) (by rfl)
      (by simp [tsFields, ownProperty, JSValue.toBoolean])]
    simp [outFields, ownProperty, stringOr, JSValue.isString, normalizedIntensity,
      JSNum.isFinite, asciiHost]
  · simp [newDate, toNumber, timeClip, maxTime]

/-- C14, amended. On an alert that `normalizeAlert` returns, `ts` is the
date `new Date(input.ts)` exactly when the input's `ts` is truthy and that
date is valid, and is unset otherwise, so for `0`, `NaN`, `""`, `null`, `false`
and an absent `ts`; it is never an invalid date. -/
theorem normalizeAlert_timestamp (h : Host) (arg out : JSValue)
    (hok : normalizeAlert h arg = Except.ok out) :
    (∀ ms : ℤ, field out "ts" = JSValue.date (some ms) ↔
      ((field arg "ts").toBoolean = true ∧
        newDate h (field arg "ts") = Except.ok (some ms))) ∧
    (field out "ts" = JSValue.undefined ↔
      ((field arg "ts").toBoolean = false ∨
        newDate h (field arg "ts") = Except.ok none)) ∧
    field out "ts" ≠ JSValue.date none := by
  obtain ⟨fields, tyStr, lat, lng, n, extra, rfl, -, -, -, -, hts, rfl⟩ :=
    normalizeAlert_ok_inv hok
  simp only [field, ownProperty_out_ts]
  clear hok
  generalize ownProperty fields "ts" = v at hts ⊢
  have e0 : ownProperty ([] : List (String × JSValue)) "ts" = JSValue.undefined := rfl
  have e1 : ∀ ms : ℤ, ownProperty [("ts", JSValue.date (some ms))] "ts" =
      JSValue.date (some ms) := fun _ => rfl
  unfold tsFields at hts
  by_cases hb : v.toBoolean = true
  · rw [if_pos hb] at hts
    cases hd : newDate h v with
    | error e => simp [hd] at hts
    | ok t =>
      cases t with
      | none =>
        simp only [hd, Except.ok.injEq] at hts
        subst hts
        simp [e0, hb]
      | some ms =>
        simp only [hd, Except.ok.injEq] at hts
        subst hts
        simp [e1, hb]
  · rw [if_neg hb] at hts
    simp only [Except.ok.injEq] at hts
    subst hts
    simp [e0, hb]

/-- C14 amended, at `{lat: 1, lng: 2, ts: 1700000000000}`. -/
theorem normalizeAlert_timestamp_witness :
    normalizeAlert asciiHost (JSValue.obj
      [("lat", JSValue.num (JSNum.fin 1)), ("lng", JSValue.num (JSNum.fin 2)),
       ("ts", JSValue.num (JSNum.fin 1700000000000))])
      = Except.ok (JSValue.obj
        [("type", JSValue.str "SOS"), ("lat", JSValue.num (JSNum.fin 1)),
         ("lng", JSValue.num (JSNum.fin 2)), ("msg", JSValue.str "Signal reçu"),
         ("intensity", JSValue.num (JSNum.fin 1)), ("source", JSValue.str "unknown"),
         ("ville", JSValue.str "Inconnue"), ("ts", JSValue.date (some 1700000000000))]) ∧
    newDate asciiHost (JSValue.num (JSNum.fin 1700000000000)) =
      Except.ok (some 1700000000000) :=
  have hfirst : normalizeAlert asciiHost (JSValue.obj
      [("lat", JSValue.num (JSNum.fin 1)), ("lng", JSValue.num (JSNum.fin 2)),
       ("ts", JSValue.num (JSNum.fin 1700000000000))])
      = Except.ok (JSValue.obj
        [("type", JSValue.str "SOS"), ("lat", JSValue.num (JSNum.fin 1)),
         ("lng", JSValue.num (JSNum.fin 2)), ("msg", JSValue.str "Signal reçu"),
         ("intensity", JSValue.num (JSNum.fin 1)), ("source", JSValue.str "unknown"),
         ("ville", JSValue.str "Inconnue"), ("ts", JSValue.date (some 1700000000000))]) := by
    rw [@normalizeAlert_ok_intro asciiHost _ "SOS" 1 2 JSNum.nan
      [("ts", JSValue.date (some 1700000000000))]
      (by rfl) (by rfl) (by rfl) (by rfl)
      (by simp [tsFields, ownProperty, JSValue.toBoolean, newDate, toNumber, timeClip, maxTime]
          norm_num [abs_of_nonneg])]
    simp [outFields, ownProperty, stringOr, JSValue.isString, normalizedIntensity,
      JSNum.isFinite, asciiHost]
  ⟨hfirst, ((normalizeAlert_timestamp asciiHost _ _ hfirst).1 1700000000000).mp rfl |>.2⟩

/-! ## C15: only the eight fields count -/

/-- C15. Two inputs, neither `null`, that agree on `type`, `lat`, `lng`, `msg`,
`intensity`, `source`, `ville` and `ts` get the same result from
`normalizeAlert`; an alert it returns has the properties `type`, `lat`, `lng`,
`msg`, `intensity`, `source`, `ville` and at most `ts` besides, so no `_id`; and
in every run of the ingestion paths each store step is started on such an
alert. -/
theorem normalizeAlert_reads_eight_fields (h : Host) :
    (∀ a b, a ≠ JSValue.null → b ≠ JSValue.null →
      (∀ k ∈ recognisedKeys, field a k = field b k) →
      normalizeAlert h a = normalizeAlert h b) ∧
    (∀ arg out, normalizeAlert h arg = Except.ok out →
      (keys out = ["type", "lat", "lng", "msg", "intensity", "source", "ville"] ∨
        keys out = ["type", "lat", "lng", "msg", "intensity", "source", "ville", "ts"]) ∧
      "_id" ∉ keys out) ∧
    (∀ actions, ∀ pd ∈ (run h Server.start actions).pending,
      "_id" ∉ keys pd.2 ∧ ∀ k ∈ keys pd.2, k ∈ recognisedKeys) := by
  have hkeys : ∀ arg out, normalizeAlert h arg = Except.ok out →
      "_id" ∉ keys out ∧ ∀ k ∈ keys out, k ∈ recognisedKeys := by
    intro arg out hok
    rcases keys_of_normalizeAlert hok with hk | hk <;> rw [hk] <;> decide
  refine ⟨?_, ?_, ?_⟩
  · intro a b ha hb hagree
    rw [normalizeAlert_project h a ha, normalizeAlert_project h b hb]
    have e : project a = project b := by
      simp only [project, JSValue.obj.injEq]
      apply List.map_congr_left
      intro k hk
      rw [hagree k hk]
    rw [e]
  · intro arg out hok
    exact ⟨keys_of_normalizeAlert hok, (hkeys arg out hok).1⟩
  · intro actions pd hpd
    obtain ⟨raw, hraw⟩ := run_pending h actions Server.start
      (by intro pd hpd; simp [Server.start] at hpd) pd hpd
    exact hkeys raw pd.2 hraw

/-- C15, at the inputs `{lat: 1, lng: 2}` and `{lat: 1, lng: 2, _id: "x"}`. -/
theorem normalizeAlert_reads_eight_fields_witness :
    normalizeAlert asciiHost (JSValue.obj
      [("lat", JSValue.num (JSNum.fin 1)), ("lng", JSValue.num (JSNum.fin 2))]) =
    normalizeAlert asciiHost (JSValue.obj
      [("lat", JSValue.num (JSNum.fin 1)), ("lng", JSValue.num (JSNum.fin 2)),
       ("_id", JSValue.str "x")]) :=
  (normalizeAlert_reads_eight_fields asciiHost).1 _ _ (by simp) (by simp) (by
    intro k hk
    simp only [recognisedKeys, List.mem_cons, List.mem_singleton, List.not_mem_nil,
      or_false] at hk
    rcases hk with rfl | rfl | rfl | rfl | rfl | rfl | rfl | rfl <;> rfl)

end EchoOne
